import Mathlib

/-!
# vsphere-problem-detector: the check scheduler of `pkg/operator/vsphere_check.go`

A shallow embedding of the scheduler (`runChecks` and the functions it calls) and of
the platform-spec conversion (`convertToPlatformSpec`), followed by theorems about them.

Conventions of the embedding.

* A Go `error` is an `Option GoError`; `none` is `nil`.
* A Go pointer that may be `nil` is an `Option`.
* A Go `map[string]T` is an association list read with `List.lookup`; an assignment
  `m[k] = v` puts the pair in front, so the latest assignment is the one found.
* Objects with mutable state (the registered node checks, the result collector) are
  threaded through explicitly as a `World`; work units handed to the pool are
  functions `World σ → World σ`, run one at a time.
* Calls that leave the process (vCenter, the Kubernetes listers) are read from an
  `Env` record that fixes what each of them answers in the run under study.
* `klog` output, the Prometheus gauges and the `context.WithTimeout` scopes are left out.
* Every call of the scheduler to a check, to the pool or to a collaborator leaves an
  `Event` in the trace, in the order in which the calls happen.
-/

namespace Operator

/-! ## Data model -/

/-- A non-nil Go `error`, identified with its message. -/
abbrev GoError := String

/-- The type `v1.Node`, reduced to the two fields the scheduler reads. -/
structure Node where
  Name : String
  ProviderID : String
deriving DecidableEq, Repr

/-- The type `mo.VirtualMachine`: the scheduler only passes it on, `Self` identifies it. -/
structure VirtualMachine where
  Self : String
deriving DecidableEq, Repr

/-- The type `ocpv1.VSpherePlatformVCenterSpec`. -/
structure VSpherePlatformVCenterSpec where
  Server : String
  Port : Int
  Datacenters : List String
deriving DecidableEq, Repr

/-- The type `ocpv1.VSpherePlatformTopology`. -/
structure VSpherePlatformTopology where
  Datacenter : String
  ComputeCluster : String
  Networks : List String
  Datastore : String
  ResourcePool : String
  Folder : String
deriving DecidableEq, Repr

/-- The type `ocpv1.VSpherePlatformFailureDomainSpec`. -/
structure VSpherePlatformFailureDomainSpec where
  Name : String
  Region : String
  Zone : String
  Server : String
  Topology : VSpherePlatformTopology
deriving DecidableEq, Repr

/-- The type `ocpv1.VSpherePlatformSpec` (the two slices the conversion touches). -/
structure VSpherePlatformSpec where
  VCenters : List VSpherePlatformVCenterSpec
  FailureDomains : List VSpherePlatformFailureDomainSpec
deriving DecidableEq, Repr

/-- The type `ocpv1.Infrastructure`: `VSphere` is `infra.Spec.PlatformSpec.VSphere`. -/
structure Infrastructure where
  VSphere : Option VSpherePlatformSpec
deriving DecidableEq, Repr

/-- The type `vsphere.VirtualCenterConfig` of the in-tree cloud provider. -/
structure VirtualCenterConfig where
  User : String
  Datacenters : String
deriving DecidableEq, Repr

/-- The `Workspace` section of `vsphere.VSphereConfig`. -/
structure WorkspaceConfig where
  VCenterIP : String
  Datacenter : String
  Folder : String
  DefaultDatastore : String
  ResourcePoolPath : String
deriving DecidableEq, Repr

/-- The type `vsphere.VSphereConfig` (in-tree configuration). -/
structure VSphereConfig where
  VirtualCenter : List (String × VirtualCenterConfig)
  Workspace : WorkspaceConfig
deriving DecidableEq, Repr

/-- The type `check.CheckContext`, with the fields this file's functions read or write. -/
structure CheckContext where
  VMConfig : Option VSphereConfig
  PlatformSpec : Option VSpherePlatformSpec
  Username : String
deriving DecidableEq, Repr

/-! ## `strings` helpers -/

/-- Worker of `stringsSplit`: `cur` holds the current field, reversed. -/
def splitChars (sep : Char) : List Char → List Char → List String
  | [], cur => [String.mk cur.reverse]
  | c :: cs, cur =>
    if c = sep then String.mk cur.reverse :: splitChars sep cs []
    else splitChars sep cs (c :: cur)

/-- Go `strings.Split(s, sep)` for a separator of one character. -/
def stringsSplit (s : String) (sep : Char) : List String :=
  splitChars sep s.data []

/-- Go `strings.TrimPrefix`. -/
def stringsTrimPrefix (s p : String) : String :=
  if p.data <+: s.data then String.mk (s.data.drop p.data.length) else s

/-- Go `unicode.IsSpace`. -/
def unicodeIsSpace (c : Char) : Bool :=
  let n := c.toNat
  (9 ≤ n ∧ n ≤ 13) ∨ n = 32 ∨ n = 0x85 ∨ n = 0xA0 ∨ n = 0x1680 ∨
  (0x2000 ≤ n ∧ n ≤ 0x200A) ∨ n = 0x2028 ∨ n = 0x2029 ∨ n = 0x202F ∨ n = 0x205F ∨ n = 0x3000

/-- Go `strings.TrimSpace`. -/
def stringsTrimSpace (s : String) : String :=
  String.mk ((s.data.dropWhile unicodeIsSpace).reverse.dropWhile unicodeIsSpace).reverse

/-! ## Platform-spec conversion -/

/-- Source: `vCentersToMap`. -/
def vCentersToMap (vcenters : List VSpherePlatformVCenterSpec) :
    List (String × VSpherePlatformVCenterSpec) :=
  vcenters.foldl (fun vcenterMap v => (v.Server, v) :: vcenterMap) []

/-- Source: `convertIntreeToPlatformSpec`. -/
def convertIntreeToPlatformSpec (config : VSphereConfig) (platformSpec : VSpherePlatformSpec) :
    VSpherePlatformSpec :=
  match config.VirtualCenter.lookup config.Workspace.VCenterIP with
  | some ccmVcenter =>
    let datacenters := stringsSplit ccmVcenter.Datacenters ','
    let vc : VSpherePlatformVCenterSpec :=
      { Server := config.Workspace.VCenterIP, Port := 0, Datacenters := datacenters }
    let platformSpec : VSpherePlatformSpec :=
      { platformSpec with VCenters := platformSpec.VCenters ++ [vc] }
    let fd : VSpherePlatformFailureDomainSpec :=
      { Name := "", Region := "", Zone := "", Server := config.Workspace.VCenterIP,
        Topology :=
          { Datacenter := config.Workspace.Datacenter
            ComputeCluster := ""
            Networks := []
            Datastore := config.Workspace.DefaultDatastore
            ResourcePool := config.Workspace.ResourcePoolPath
            Folder := config.Workspace.Folder } }
    { platformSpec with FailureDomains := platformSpec.FailureDomains ++ [fd] }
  | none => platformSpec

/-- Source: `convertToPlatformSpec`. The pointer `checkContext.PlatformSpec` is written
first and then updated in place; the nil test on it is kept as the source has it. -/
def convertToPlatformSpec (infra : Infrastructure) (checkContext : CheckContext) : CheckContext :=
  let checkContext := { checkContext with
    PlatformSpec := some { VCenters := [], FailureDomains := [] } }
  let checkContext :=
    match infra.VSphere with
    | some vs => { checkContext with PlatformSpec := some vs }
    | none => checkContext
  match checkContext.VMConfig with
  | some config =>
    match checkContext.PlatformSpec with
    | some platformSpec =>
      if platformSpec.VCenters.length ≠ 0 then
        let vcenter := vCentersToMap platformSpec.VCenters
        if (vcenter.lookup config.Workspace.VCenterIP).isNone then
          { checkContext with PlatformSpec := some (convertIntreeToPlatformSpec config platformSpec) }
        else checkContext
      else
        { checkContext with PlatformSpec := some (convertIntreeToPlatformSpec config platformSpec) }
    | none => checkContext
  | none => checkContext

/-! ## Checks, results, collector -/

/-- Modelled from the spec: the type `checkResult`, whose declaration is not in
`vsphere_check.go`. The spec gives a result a name, an optional node identifier and an
outcome (success, or failure with its cause). A composite literal that does not mention a
field leaves it at its zero value. -/
structure checkResult where
  Name : String
  Node : Option String := none
  Error : Option GoError := none
deriving DecidableEq, Repr

/-- Modelled from the spec: the type `ResultCollector`, whose declaration is not in
`vsphere_check.go`: an append-only aggregate of results, one entry per insertion, never
deduplicated. -/
structure ResultCollector where
  results : List checkResult
deriving DecidableEq, Repr

/-- Modelled from the spec: `NewResultsCollector`, a collector without entries. -/
def NewResultsCollector : ResultCollector := { results := [] }

/-- Modelled from the spec: `ResultCollector.AddResult`, which inserts one entry. -/
def ResultCollector.AddResult (rc : ResultCollector) (res : checkResult) : ResultCollector :=
  { results := rc.results ++ [res] }

/-- The type `check.ClusterCheck`: `func(ctx *CheckContext) error`. -/
abbrev ClusterCheck := CheckContext → Option GoError

/-- The method table of a `check.NodeCheck` whose receiver has fields of type `σ`. -/
structure NodeCheckImpl (σ : Type) where
  Name : String
  StartCheck : σ → σ
  CheckNode : CheckContext → Node → VirtualMachine → σ → Option GoError × σ
  FinishCheck : CheckContext → σ → σ

/-- A registered `check.NodeCheck`: an interface value, that is a method table together
with the current contents of the receiver. -/
structure NodeCheck (σ : Type) where
  impl : NodeCheckImpl σ
  state : σ

/-- Method call `check.Name()`. -/
def NodeCheck.Name {σ : Type} (check : NodeCheck σ) : String := check.impl.Name

/-- Method call `check.StartCheck()`. -/
def NodeCheck.StartCheck {σ : Type} (check : NodeCheck σ) : NodeCheck σ :=
  { check with state := check.impl.StartCheck check.state }

/-- Method call `check.CheckNode(ctx, node, vm)`: the returned error and the receiver
afterwards. -/
def NodeCheck.CheckNode {σ : Type} (check : NodeCheck σ) (ctx : CheckContext) (node : Node)
    (vm : VirtualMachine) : Option GoError × NodeCheck σ :=
  ((check.impl.CheckNode ctx node vm check.state).1,
   { check with state := (check.impl.CheckNode ctx node vm check.state).2 })

/-- Method call `check.FinishCheck(ctx)`. -/
def NodeCheck.FinishCheck {σ : Type} (check : NodeCheck σ) (ctx : CheckContext) : NodeCheck σ :=
  { check with state := check.impl.FinishCheck ctx check.state }

/-! ## Trace and mutable state -/

/-- Which closure a call to `RunGoroutine` hands to the pool. -/
inductive UnitLabel where
  | cluster (name : String)
  | node (node : Node)
deriving DecidableEq, Repr

/-- The calls recorded in the trace. -/
inductive Event where
  | StartMetricCollection
  | connect
  | UserSession
  | GetInfrastructure
  | RunGoroutine (unit : UnitLabel)
  | ListNodes
  | StartCheck (check : String)
  | ClusterCheck (name : String)
  | getVM (node : Node)
  | CheckNode (check : String) (node : Node)
  | Wait
  | FinishCheck (check : String)
  | FinishedAllChecks
  | Logout
deriving DecidableEq, Repr

/-- The state shared by every goroutine that is not a node check: the result collector
and the trace. -/
structure Shared where
  resultCollector : ResultCollector
  trace : List Event
deriving DecidableEq, Repr

/-- Records a call. -/
def Shared.log (s : Shared) (e : Event) : Shared :=
  { s with trace := s.trace ++ [e] }

/-- The call `resultCollector.AddResult(res)`. -/
def Shared.AddResult (s : Shared) (res : checkResult) : Shared :=
  { s with resultCollector := s.resultCollector.AddResult res }

/-- The mutable state of a run: the registered node checks (`c.controller.nodeChecks`,
in registration order) and the shared state. -/
structure World (σ : Type) where
  nodeChecks : List (NodeCheck σ)
  shared : Shared

/-- A `for ... range c.controller.nodeChecks` loop: `body` is run on every registered
check in registration order; it may change the check it is given and the shared state. -/
def rangeNodeChecksAux {σ : Type} (body : NodeCheck σ → Shared → NodeCheck σ × Shared) :
    List (NodeCheck σ) → Shared → List (NodeCheck σ) × Shared
  | [], s => ([], s)
  | check :: rest, s =>
    let r := body check s
    let rs := rangeNodeChecksAux body rest r.2
    (r.1 :: rs.1, rs.2)

/-- The loop `rangeNodeChecksAux` on the checks of a world. -/
def rangeNodeChecks {σ : Type} (body : NodeCheck σ → Shared → NodeCheck σ × Shared)
    (w : World σ) : World σ :=
  let r := rangeNodeChecksAux body w.nodeChecks w.shared
  { nodeChecks := r.1, shared := r.2 }

/-! ## The worker pool -/

/-- Modelled from the spec: the type `CheckThreadPool`, whose declaration is not in
`vsphere_check.go`. The pool holds the units of work it has accepted, in submission
order. -/
structure CheckThreadPool (σ : Type) where
  jobs : List (World σ → World σ)

/-- Modelled from the spec: `NewCheckThreadPool`, a pool that has accepted nothing. -/
def NewCheckThreadPool {σ : Type} : CheckThreadPool σ := { jobs := [] }

/-- Modelled from the spec: `CheckThreadPool.RunGoroutine`, which enqueues a
zero-argument unit of work for asynchronous execution. -/
def CheckThreadPool.RunGoroutine {σ : Type} (p : CheckThreadPool σ) (job : World σ → World σ) :
    CheckThreadPool σ :=
  { jobs := p.jobs ++ [job] }

/-- Runs the accepted units whose indices are listed, in the order listed. -/
def runJobs {σ : Type} (jobs : List (World σ → World σ)) (order : List Nat) (w : World σ) :
    World σ :=
  order.foldl (fun w i => match jobs[i]? with
    | some job => job w
    | none => w) w

/-- Modelled from the spec: `CheckThreadPool.Wait`, the join of the pool. There is no
ordering guarantee among units, so the order in which the pool finishes them is an input
(`order`, a list of indices into the accepted units; an index that is repeated counts
once and an index that names no unit is skipped), and so is the error that the join
returns (`err`: the deadline or cancellation error, or `none`). The units are functions
on the world and take effect one after the other; their effects are placed where the
scheduler waits for them. The join returns without error only when every accepted unit
has completed, which is the condition `∀ i < jobs.length, i ∈ order` on these inputs; it
is stated where a theorem needs it. -/
def CheckThreadPool.Wait {σ : Type} (p : CheckThreadPool σ) (order : List Nat)
    (err : Option GoError) (w : World σ) : World σ × Option GoError :=
  (runJobs p.jobs order.dedup w, err)

/-! ## Collaborators -/

/-- What the collaborators of one run answer, and what the controller has registered.

* `connect` is the outcome of `vSphereChecker.connect` (configuration, credentials and
  login are collaborator calls from beginning to end);
* `UserSession` is the outcome of `sessionMgr.UserSession(ctx)`, reduced to the user name;
* `GetInfrastructure` and `ListNodes` are the controller calls of these names;
* `ToLower` is Go `strings.ToLower` (the Unicode case tables);
* `FindByUuid` and `Properties` are the two vCenter calls of `getVM`;
* `clusterChecks` is `c.controller.clusterChecks`, a Go map, as the list of its entries in
  the order in which this run's `range` visits them;
* `poolOrder` and `WaitErr` are the schedule and the outcome of the pool, see
  `CheckThreadPool.Wait`. -/
structure Env where
  connect : Except GoError CheckContext
  UserSession : Except GoError String
  GetInfrastructure : Except GoError Infrastructure
  ListNodes : Except GoError (List Node)
  ToLower : String → String
  FindByUuid : String → Except GoError String
  Properties : String → Except GoError VirtualMachine
  clusterChecks : List (String × ClusterCheck)
  poolOrder : List Nat
  WaitErr : Option GoError

/-! ## The scheduler -/

/-- Source: `getVM`. A reference returned by `FindByUuid` without an error is taken to be
non-nil. -/
def getVM (env : Env) (_checkContext : CheckContext) (node : Node) :
    Except GoError VirtualMachine :=
  let vmUUID := env.ToLower (stringsTrimSpace (stringsTrimPrefix node.ProviderID "vsphere://"))
  match env.FindByUuid vmUUID with
  | .error err => .error ("failed to find VM by UUID " ++ vmUUID ++ ": " ++ err)
  | .ok svm =>
    match env.Properties svm with
    | .error err => .error ("failed to load VM " ++ node.Name ++ ": " ++ err)
    | .ok o => .ok o

/-- Source: `runSingleClusterCheck`. -/
def runSingleClusterCheck (checkContext : CheckContext) (name : String)
    (checkFunc : ClusterCheck) (s : Shared) : Shared :=
  let res : checkResult := { Name := name }
  let s := s.log (.ClusterCheck name)
  let err := checkFunc checkContext
  let res : checkResult :=
    match err with
    | some e => { res with Error := some e }
    | none => res
  s.AddResult res

/-- Source: `runSingleNodeSingleCheck`. -/
def runSingleNodeSingleCheck {σ : Type} (checkContext : CheckContext) (node : Node)
    (vm : VirtualMachine) (check : NodeCheck σ) (s : Shared) : NodeCheck σ × Shared :=
  let name := check.Name
  let res : checkResult := { Name := name }
  let s := s.log (.CheckNode name node)
  let r := check.CheckNode checkContext node vm
  let res : checkResult :=
    match r.1 with
    | some e => { res with Error := some e }
    | none => res
  (r.2, s.AddResult res)

/-- The closure that `enqueueSingleNodeChecks` hands to the pool (source lines 327-347). -/
def singleNodeChecksJob {σ : Type} (env : Env) (checkContext : CheckContext) (node : Node)
    (w : World σ) : World σ :=
  let w : World σ := { w with shared := w.shared.log (.getVM node) }
  match getVM env checkContext node with
  | .error err =>
    rangeNodeChecks (fun check s =>
      let res : checkResult := { Name := check.Name, Error := some err }
      (check, s.AddResult res)) w
  | .ok vm =>
    rangeNodeChecks (fun check s => runSingleNodeSingleCheck checkContext node vm check s) w

/-- The closure that `enqueueClusterChecks` hands to the pool (source lines 302-304). -/
def singleClusterCheckJob {σ : Type} (checkContext : CheckContext) (name : String)
    (checkFunc : ClusterCheck) (w : World σ) : World σ :=
  { w with shared := runSingleClusterCheck checkContext name checkFunc w.shared }

/-- The scheduler goroutine's view: the world and the pool `checkRunner`. -/
structure Sched (σ : Type) where
  world : World σ
  checkRunner : CheckThreadPool σ

/-- The call `checkRunner.RunGoroutine(checkContext.Context, job)`. -/
def Sched.RunGoroutine {σ : Type} (s : Sched σ) (label : UnitLabel) (job : World σ → World σ) :
    Sched σ :=
  { world := { s.world with shared := s.world.shared.log (.RunGoroutine label) },
    checkRunner := s.checkRunner.RunGoroutine job }

/-- Source: `enqueueClusterChecks`. -/
def enqueueClusterChecks {σ : Type} (env : Env) (checkContext : CheckContext) (s : Sched σ) :
    Sched σ :=
  env.clusterChecks.foldl (fun s entry =>
    s.RunGoroutine (.cluster entry.1) (singleClusterCheckJob checkContext entry.1 entry.2)) s

/-- Source: `enqueueSingleNodeChecks`. -/
def enqueueSingleNodeChecks {σ : Type} (env : Env) (checkContext : CheckContext) (s : Sched σ)
    (node : Node) : Sched σ :=
  s.RunGoroutine (.node node) (singleNodeChecksJob env checkContext node)

/-- Source: `enqueueNodeChecks`. -/
def enqueueNodeChecks {σ : Type} (env : Env) (checkContext : CheckContext) (s : Sched σ) :
    Sched σ × Option GoError :=
  let s : Sched σ := { s with world := { s.world with shared := s.world.shared.log .ListNodes } }
  match env.ListNodes with
  | .error err => (s, some err)
  | .ok nodes =>
    let w := rangeNodeChecks (fun nodeCheck sh =>
      (nodeCheck.StartCheck, sh.log (.StartCheck nodeCheck.Name))) s.world
    let s : Sched σ := { s with world := w }
    let s := nodes.foldl (fun s node => enqueueSingleNodeChecks env checkContext s node) s
    (s, none)

/-- Source: `finishNodeChecks`. -/
def finishNodeChecks {σ : Type} (ctx : CheckContext) (w : World σ) : World σ :=
  rangeNodeChecks (fun check sh =>
    (check.FinishCheck ctx, sh.log (.FinishCheck check.Name))) w

/-- What `runChecks` returns, `(*ResultCollector, error)`, together with the world it
leaves behind. -/
structure RunResult (σ : Type) where
  resultCollector : Option ResultCollector
  err : Option GoError
  world : World σ

/-- The call `v.controller.metricsCollector.FinishedAllChecks()`. -/
def World.FinishedAllChecks {σ : Type} (w : World σ) : World σ :=
  { w with shared := w.shared.log .FinishedAllChecks }

/-- Source: `runChecks` from line 65 on, where `connect` has returned `checkContext` and
the logout is deferred. The composite literal of lines 74-86 names variables that the
file does not declare (`vmConfig`, `vmClient`, `restClient`); the context used further
down is the one `connect` returned, with the fields assigned at lines 91-95. -/
def runChecksConnected {σ : Type} (env : Env) (checkContext : CheckContext) (w : World σ) :
    RunResult σ :=
  let w : World σ := { w with shared := w.shared.log .UserSession }
  match env.UserSession with
  | .error err => { resultCollector := some w.shared.resultCollector, err := some err, world := w }
  | .ok user =>
    let w : World σ := { w with shared := w.shared.log .GetInfrastructure }
    match env.GetInfrastructure with
    | .error err => { resultCollector := none, err := some err, world := w }
    | .ok infra =>
      let checkContext := { checkContext with Username := user }
      let checkContext := convertToPlatformSpec infra checkContext
      let s : Sched σ := { world := w, checkRunner := NewCheckThreadPool }
      let s := enqueueClusterChecks env checkContext s
      match enqueueNodeChecks env checkContext s with
      | (s, some err) =>
        let w := s.world.FinishedAllChecks
        { resultCollector := some w.shared.resultCollector, err := some err, world := w }
      | (s, none) =>
        let r := s.checkRunner.Wait env.poolOrder env.WaitErr s.world
        let w : World σ := r.1
        let w : World σ := { w with shared := w.shared.log .Wait }
        match r.2 with
        | some err =>
          let w := w.FinishedAllChecks
          { resultCollector := some w.shared.resultCollector, err := some err, world := w }
        | none =>
          let w := finishNodeChecks checkContext w
          let w := w.FinishedAllChecks
          { resultCollector := some w.shared.resultCollector, err := none, world := w }

/-- Source: `runChecks`. `nodeChecks` is `v.controller.nodeChecks` as the run finds it. The
collector that is returned is a pointer, so the caller sees it as the run leaves it. -/
def runChecks {σ : Type} (env : Env) (nodeChecks : List (NodeCheck σ)) : RunResult σ :=
  let w : World σ :=
    { nodeChecks := nodeChecks,
      shared := { resultCollector := NewResultsCollector, trace := [Event.StartMetricCollection] } }
  let w : World σ := { w with shared := w.shared.log .connect }
  match env.connect with
  | .error err => { resultCollector := some w.shared.resultCollector, err := some err, world := w }
  | .ok checkContext =>
    let r := runChecksConnected env checkContext w
    { r with world := { r.world with shared := r.world.shared.log .Logout } }

/-! ## Concrete checks, nodes and collaborators

Used to evaluate the definitions above on explicit runs. The receiver of the example
node checks is a counter: `StartCheck` resets it, `CheckNode` adds one, `FinishCheck`
adds one hundred. -/

/-- A context as `connect` could return it. -/
def exCtx : CheckContext := { VMConfig := none, PlatformSpec := none, Username := "" }

/-- A node check that passes on every node. -/
def exPass (name : String) : NodeCheck Nat :=
  { impl :=
      { Name := name
        StartCheck := fun _ => 0
        CheckNode := fun _ _ _ n => (none, n + 1)
        FinishCheck := fun _ n => n + 100 },
    state := 7 }

/-- A node check that fails on every node with error `e`. -/
def exFail (name : String) (e : GoError) : NodeCheck Nat :=
  { impl :=
      { Name := name
        StartCheck := fun _ => 0
        CheckNode := fun _ _ _ n => (some e, n + 1)
        FinishCheck := fun _ n => n + 100 },
    state := 7 }

/-- A node whose VM exists. -/
def exNodeA : Node := { Name := "node-a", ProviderID := "vsphere://A" }

/-- A node whose VM is not found. -/
def exNodeB : Node := { Name := "node-b", ProviderID := "vsphere://B" }

/-- Another node with the provider ID of `exNodeB`. -/
def exNodeB2 : Node := { Name := "node-b2", ProviderID := "vsphere://B" }

/-- A second node whose VM exists. -/
def exNodeC : Node := { Name := "node-c", ProviderID := "vsphere://C " }

/-- Collaborators of a run in which everything but the lookup of UUID `b` succeeds:
two cluster checks, nodes `exNodeA` and `exNodeC`, every unit run by the pool. -/
def exEnv : Env :=
  { connect := .ok exCtx
    UserSession := .ok "administrator@vsphere.local"
    GetInfrastructure := .ok { VSphere := none }
    ListNodes := .ok [exNodeA, exNodeC]
    ToLower := fun s => String.mk (s.data.map Char.toLower)
    FindByUuid := fun u => if u = "b" then .error "not found" else .ok ("vm-" ++ u)
    Properties := fun r => .ok { Self := r }
    clusterChecks := [("CheckFolder", fun _ => none), ("CheckTask", fun _ => none)]
    poolOrder := [3, 0, 2, 1]
    WaitErr := none }

/-- An empty world with the given registered node checks. -/
def exWorld (nodeChecks : List (NodeCheck Nat)) : World Nat :=
  { nodeChecks := nodeChecks, shared := { resultCollector := NewResultsCollector, trace := [] } }

/-- A scheduler state with an empty pool. -/
def exSched (nodeChecks : List (NodeCheck Nat)) : Sched Nat :=
  { world := exWorld nodeChecks, checkRunner := NewCheckThreadPool }


/-- The value that lines 124-128 of `convertToPlatformSpec` leave in
`checkContext.PlatformSpec`: a copy of the infrastructure's vSphere platform spec, or the
empty spec when the infrastructure has none. -/
def infraPlatformSpec (infra : Infrastructure) : VSpherePlatformSpec :=
  infra.VSphere.getD { VCenters := [], FailureDomains := [] }

/-- An in-tree configuration with one vCenter, `vc1.example.com`. -/
def exConfig : VSphereConfig :=
  { VirtualCenter := [("vc1.example.com", { User := "admin", Datacenters := "dc1,dc2" })],
    Workspace :=
      { VCenterIP := "vc1.example.com"
        Datacenter := "dc1"
        Folder := "/dc1/vm/cluster"
        DefaultDatastore := "ds1"
        ResourcePoolPath := "/dc1/host/c1/Resources" } }

/-- An infrastructure object whose platform spec names another vCenter. -/
def exInfra : Infrastructure :=
  { VSphere := some
      { VCenters := [{ Server := "vc0.example.com", Port := 443, Datacenters := ["dc0"] }],
        FailureDomains := [] } }

/-! ## Vocabulary for statements about a run -/

/-- An event that a unit of work produces (as opposed to the scheduler goroutine). -/
def Event.isWorker : Event → Bool
  | .ClusterCheck _ => true
  | .getVM _ => true
  | .CheckNode _ _ => true
  | _ => false

/-- A call of `FinishCheck`. -/
def Event.isFinishCheck : Event → Bool
  | .FinishCheck _ => true
  | _ => false

/-- A call of `StartCheck`. -/
def Event.isStartCheck : Event → Bool
  | .StartCheck _ => true
  | _ => false

/-- The context the checks of a run receive: the one `connect` returned, with the user
name of the session and the converted platform spec. -/
def runContext (checkContext : CheckContext) (user : String) (infra : Infrastructure) :
    CheckContext :=
  convertToPlatformSpec infra { checkContext with Username := user }

/-- The units a run has handed to the pool when it calls `Wait`: one per cluster check,
then one per node. -/
def scheduledJobs {σ : Type} (env : Env) (ctx : CheckContext) (nodes : List Node) :
    List (World σ → World σ) :=
  env.clusterChecks.map (fun entry => singleClusterCheckJob ctx entry.1 entry.2) ++
    nodes.map (fun node => singleNodeChecksJob env ctx node)

/-- The trace of the scheduler goroutine up to its call of `ListNodes`. -/
def traceToListNodes (env : Env) : List Event :=
  [Event.StartMetricCollection, Event.connect, Event.UserSession, Event.GetInfrastructure] ++
    env.clusterChecks.map (fun entry => Event.RunGoroutine (.cluster entry.1)) ++
    [Event.ListNodes]

/-- The world of a run at the moment it calls `Wait`, if no unit has run yet. -/
def scheduledWorld {σ : Type} (env : Env) (nodeChecks : List (NodeCheck σ))
    (nodes : List Node) : World σ :=
  { nodeChecks := nodeChecks.map (fun c => c.StartCheck),
    shared :=
      { resultCollector := NewResultsCollector,
        trace := (traceToListNodes env ++
          nodeChecks.map (fun c => Event.StartCheck c.Name) ++
          nodes.map (fun node => Event.RunGoroutine (.node node))) } }

/-- The world of a run when `Wait` returns: the pool has run the units that
`env.poolOrder` names. -/
def worldAfterWait {σ : Type} (env : Env) (ctx : CheckContext) (nodeChecks : List (NodeCheck σ))
    (nodes : List Node) : World σ :=
  runJobs (scheduledJobs env ctx nodes) env.poolOrder.dedup (scheduledWorld env nodeChecks nodes)

/-- World `v` comes from world `w` by work of the pool's units: the registered checks are
the same objects (same method tables, in the same order), the trace has grown by worker
events only, and the collector by insertions only. -/
def World.Extends {σ : Type} (w v : World σ) : Prop :=
  v.nodeChecks.map (fun c => c.impl) = w.nodeChecks.map (fun c => c.impl) ∧
  ∃ evs rs, v.shared.trace = w.shared.trace ++ evs ∧ (∀ e ∈ evs, e.isWorker = true) ∧
    v.shared.resultCollector.results = w.shared.resultCollector.results ++ rs

/-- The collaborators of `exEnv`, except that the node list cannot be retrieved. -/
def exEnvListFails : Env := { exEnv with ListNodes := .error "nodes unavailable" }

/-- The collaborators of `exEnv`, except that the infrastructure object cannot be read. -/
def exEnvInfraFails : Env :=
  { exEnv with GetInfrastructure := .error "infrastructure unavailable" }

/-- On every world whose registered checks have the method tables `impls`, the unit `job`
keeps these method tables and inserts exactly `k` results, every one of them a
success. -/
def AddsPassing {σ : Type} (impls : List (NodeCheckImpl σ)) (job : World σ → World σ)
    (k : Nat) : Prop :=
  ∀ w : World σ, w.nodeChecks.map (fun c => c.impl) = impls →
    (job w).nodeChecks.map (fun c => c.impl) = impls ∧
    ∃ rs, (job w).shared.resultCollector.results = w.shared.resultCollector.results ++ rs ∧
      rs.length = k ∧ ∀ r ∈ rs, r.Error = none

/-- Collaborators of a run in which everything succeeds (the pool finishes the node
units before the cluster units). -/
def exEnvAllPass : Env :=
  { exEnv with poolOrder := [3, 2, 0, 1] }

/-- Collaborators of a run in which the fatal stages succeed while a cluster check, a
node check and the lookup of one node fail. -/
def exEnvChecksFail : Env :=
  { exEnv with
    clusterChecks := [("CheckFolder", fun _ => some "folder missing")]
    ListNodes := .ok [exNodeA, exNodeB]
    poolOrder := [0, 1, 2] }

/-- The collaborators of `exEnv`, except that `Wait` runs into the deadline after the
pool has finished one unit. -/
def exEnvWaitFails : Env :=
  { exEnv with poolOrder := [0], WaitErr := some "context deadline exceeded" }

/-- Three registered cluster checks, the second of which fails. -/
def exEnvThreeClusterChecks : Env :=
  { exEnv with clusterChecks :=
      [("CheckFolder", fun _ => none), ("CheckTask", fun _ => some "task failed"),
       ("CheckStorage", fun _ => none)] }

/-- A failure of the Connection kind with error `e`: "authentication/config failure before
any probe runs". In `runChecks` the calls made before the first unit is submitted are
`connect`, the user-session lookup and the infrastructure retrieval, each made only when
the ones before it have succeeded. -/
def connectionFailed (env : Env) (e : GoError) : Prop :=
  env.connect = .error e ∨
  (∃ ctx0, env.connect = .ok ctx0 ∧ env.UserSession = .error e) ∨
  (∃ ctx0 user, env.connect = .ok ctx0 ∧ env.UserSession = .ok user ∧
    env.GetInfrastructure = .error e)

/-- The connection stage has succeeded: `connect`, the user-session lookup and the
infrastructure retrieval all returned without error, so the run goes on to schedule. -/
def connectionSucceeded (env : Env) : Prop :=
  ∃ ctx0 user infra, env.connect = .ok ctx0 ∧ env.UserSession = .ok user ∧
    env.GetInfrastructure = .ok infra

/-! ## Loops over the registered node checks -/

/-- A loop whose body appends results `rs check` and events `es check` and replaces the
check by `f check` does so for every check, in registration order. -/
theorem rangeNodeChecksAux_eq {σ : Type} (body : NodeCheck σ → Shared → NodeCheck σ × Shared)
    (f : NodeCheck σ → NodeCheck σ) (rs : NodeCheck σ → List checkResult)
    (es : NodeCheck σ → List Event)
    (hbody : ∀ c s, body c s =
      (f c, { resultCollector := { results := s.resultCollector.results ++ rs c },
              trace := s.trace ++ es c })) :
    ∀ (cs : List (NodeCheck σ)) (s : Shared), rangeNodeChecksAux body cs s =
      (cs.map f, { resultCollector := { results := s.resultCollector.results ++ cs.flatMap rs },
                   trace := s.trace ++ cs.flatMap es }) := by
  intro cs
  induction cs with
  | nil => intro s; simp [rangeNodeChecksAux]
  | cons c cs ih =>
    intro s
    simp [rangeNodeChecksAux, hbody, ih, List.append_assoc]

theorem flatMap_singleton_fun {α β : Type} (g : α → β) (l : List α) :
    l.flatMap (fun a => [g a]) = l.map g := by
  induction l with
  | nil => rfl
  | cons a l ih => simp [List.flatMap_cons, ih]

theorem flatMap_nil_fun {α β : Type} (l : List α) :
    l.flatMap (fun _ => ([] : List β)) = [] := by
  induction l with
  | nil => rfl
  | cons a l ih => simp [List.flatMap_cons, ih]

theorem runSingleNodeSingleCheck_eq {σ : Type} (ctx : CheckContext) (node : Node)
    (vm : VirtualMachine) (check : NodeCheck σ) (s : Shared) :
    runSingleNodeSingleCheck ctx node vm check s =
      ((check.CheckNode ctx node vm).2,
       { resultCollector := { results := (s.resultCollector.results ++
           [{ Name := check.Name, Node := none, Error := (check.CheckNode ctx node vm).1 }]) },
         trace := s.trace ++ [Event.CheckNode check.Name node] }) := by
  unfold runSingleNodeSingleCheck
  cases h : (check.CheckNode ctx node vm).1 <;>
    simp [h, Shared.log, Shared.AddResult, ResultCollector.AddResult]

theorem runSingleClusterCheck_eq (ctx : CheckContext) (name : String) (checkFunc : ClusterCheck)
    (s : Shared) :
    runSingleClusterCheck ctx name checkFunc s =
      { resultCollector := { results := (s.resultCollector.results ++
          [{ Name := name, Node := none, Error := checkFunc ctx }]) },
        trace := s.trace ++ [Event.ClusterCheck name] } := by
  unfold runSingleClusterCheck
  cases h : checkFunc ctx <;>
    simp [h, Shared.log, Shared.AddResult, ResultCollector.AddResult]

/-- The node unit when the lookup fails. -/
theorem singleNodeChecksJob_error {σ : Type} (env : Env) (ctx : CheckContext) (node : Node)
    (w : World σ) (e : GoError) (h : getVM env ctx node = .error e) :
    singleNodeChecksJob env ctx node w =
      { nodeChecks := w.nodeChecks,
        shared :=
          { resultCollector := { results := (w.shared.resultCollector.results ++
              w.nodeChecks.map (fun c => { Name := c.Name, Node := none, Error := some e })) },
            trace := w.shared.trace ++ [Event.getVM node] } } := by
  unfold singleNodeChecksJob
  simp only [h, rangeNodeChecks]
  rw [rangeNodeChecksAux_eq _ id (fun c => [{ Name := c.Name, Node := none, Error := some e }])
    (fun _ => [])]
  · simp [flatMap_singleton_fun, flatMap_nil_fun, Shared.log]
  · intro c s
    simp [Shared.AddResult, ResultCollector.AddResult]

/-- The node unit when the lookup succeeds. -/
theorem singleNodeChecksJob_ok {σ : Type} (env : Env) (ctx : CheckContext) (node : Node)
    (w : World σ) (vm : VirtualMachine) (h : getVM env ctx node = .ok vm) :
    singleNodeChecksJob env ctx node w =
      { nodeChecks := w.nodeChecks.map (fun c => (c.CheckNode ctx node vm).2),
        shared :=
          { resultCollector := { results := (w.shared.resultCollector.results ++
              w.nodeChecks.map (fun c =>
                { Name := c.Name, Node := none, Error := (c.CheckNode ctx node vm).1 })) },
            trace := (w.shared.trace ++ [Event.getVM node] ++
              w.nodeChecks.map (fun c => Event.CheckNode c.Name node)) } } := by
  unfold singleNodeChecksJob
  simp only [h, rangeNodeChecks]
  rw [rangeNodeChecksAux_eq _ (fun c => (c.CheckNode ctx node vm).2)
    (fun c => [{ Name := c.Name, Node := none, Error := (c.CheckNode ctx node vm).1 }])
    (fun c => [Event.CheckNode c.Name node])]
  · simp [flatMap_singleton_fun, Shared.log]
  · intro c s
    exact runSingleNodeSingleCheck_eq ctx node vm c s

/-! ## The node work unit -/

/-- C1: when `getVM` fails with error `e` for a node, the work unit that
`enqueueSingleNodeChecks` hands to the pool adds exactly one result per registered node
check, in registration order, each with the check's `Name()` and with `Error` equal to
`e`; it calls `CheckNode` on no check (its only event is the lookup, and no check's
receiver changes). -/
theorem lookup_failure_fails_every_node_check {σ : Type} (env : Env) (ctx : CheckContext)
    (s : Sched σ) (node : Node) (e : GoError) (w : World σ)
    (h : getVM env ctx node = .error e) :
    (enqueueSingleNodeChecks env ctx s node).checkRunner.jobs =
        s.checkRunner.jobs ++ [singleNodeChecksJob env ctx node] ∧
    (singleNodeChecksJob env ctx node w).shared.resultCollector.results =
        w.shared.resultCollector.results ++
          w.nodeChecks.map (fun c => { Name := c.Name, Node := none, Error := some e }) ∧
    (singleNodeChecksJob env ctx node w).shared.resultCollector.results.length =
        w.shared.resultCollector.results.length + w.nodeChecks.length ∧
    (singleNodeChecksJob env ctx node w).shared.trace = w.shared.trace ++ [Event.getVM node] ∧
    (∀ name nd, Event.CheckNode name nd ∉
        (singleNodeChecksJob env ctx node w).shared.trace.drop w.shared.trace.length) ∧
    (singleNodeChecksJob env ctx node w).nodeChecks = w.nodeChecks := by
  rw [singleNodeChecksJob_error env ctx node w e h]
  refine ⟨rfl, rfl, by simp, rfl, ?_, rfl⟩
  intro name nd
  simp

/-- C1, at a concrete input: the lookup of `exNodeB` fails and three checks are
registered. -/
theorem lookup_failure_fails_every_node_check_witness :
    getVM exEnv exCtx exNodeB = .error "failed to find VM by UUID b: not found" ∧
    (singleNodeChecksJob exEnv exCtx exNodeB
        (exWorld [exPass "CheckNodeDiskUUID", exFail "CheckNodeProviderID" "bad id",
          exPass "CollectNodeHWVersion"])).shared.resultCollector.results =
      [{ Name := "CheckNodeDiskUUID", Node := none,
         Error := some "failed to find VM by UUID b: not found" },
       { Name := "CheckNodeProviderID", Node := none,
         Error := some "failed to find VM by UUID b: not found" },
       { Name := "CollectNodeHWVersion", Node := none,
         Error := some "failed to find VM by UUID b: not found" }] :=
  ⟨rfl, (lookup_failure_fails_every_node_check exEnv exCtx (exSched []) exNodeB
    "failed to find VM by UUID b: not found"
    (exWorld [exPass "CheckNodeDiskUUID", exFail "CheckNodeProviderID" "bad id",
      exPass "CollectNodeHWVersion"]) rfl).2.1⟩

/-- C2: when `getVM` succeeds for a node, the node's work unit calls `CheckNode` exactly
once on each registered check, in registration order, and adds exactly one result per
check in that order; the i-th result has the name of the i-th check and carries exactly
what the i-th `CheckNode` returned (an error, or nil on success). A failing check
neither stops the loop nor changes the results after it: with three checks of which the
second fails, the results are success, failure, success. -/
theorem lookup_success_runs_every_node_check {σ : Type} (env : Env) (ctx : CheckContext)
    (s : Sched σ) (node : Node) (vm : VirtualMachine) (w : World σ)
    (h : getVM env ctx node = .ok vm) :
    (enqueueSingleNodeChecks env ctx s node).checkRunner.jobs =
        s.checkRunner.jobs ++ [singleNodeChecksJob env ctx node] ∧
    (singleNodeChecksJob env ctx node w).shared.trace =
        w.shared.trace ++ [Event.getVM node] ++
          w.nodeChecks.map (fun c => Event.CheckNode c.Name node) ∧
    (singleNodeChecksJob env ctx node w).nodeChecks =
        w.nodeChecks.map (fun c => (c.CheckNode ctx node vm).2) ∧
    (singleNodeChecksJob env ctx node w).shared.resultCollector.results =
        w.shared.resultCollector.results ++
          w.nodeChecks.map (fun c =>
            { Name := c.Name, Node := none, Error := (c.CheckNode ctx node vm).1 }) ∧
    (singleNodeChecksJob env ctx node w).shared.resultCollector.results.length =
        w.shared.resultCollector.results.length + w.nodeChecks.length ∧
    (∀ c1 c2 c3 e2, w.nodeChecks = [c1, c2, c3] →
      (c1.CheckNode ctx node vm).1 = none → (c2.CheckNode ctx node vm).1 = some e2 →
      (c3.CheckNode ctx node vm).1 = none →
      (singleNodeChecksJob env ctx node w).shared.resultCollector.results =
        w.shared.resultCollector.results ++
          [{ Name := c1.Name, Node := none, Error := none },
           { Name := c2.Name, Node := none, Error := some e2 },
           { Name := c3.Name, Node := none, Error := none }]) := by
  rw [singleNodeChecksJob_ok env ctx node w vm h]
  refine ⟨rfl, rfl, rfl, rfl, by simp, ?_⟩
  intro c1 c2 c3 e2 hw h1 h2 h3
  simp [hw, h1, h2, h3]

/-- C2, at a concrete input: the lookup of `exNodeA` succeeds and the second of three
registered checks fails. -/
theorem lookup_success_runs_every_node_check_witness :
    getVM exEnv exCtx exNodeA = .ok { Self := "vm-a" } ∧
    (singleNodeChecksJob exEnv exCtx exNodeA
        (exWorld [exPass "CheckNodeDiskUUID", exFail "CheckNodeProviderID" "bad id",
          exPass "CollectNodeHWVersion"])).shared.resultCollector.results =
      [{ Name := "CheckNodeDiskUUID", Node := none, Error := none },
       { Name := "CheckNodeProviderID", Node := none, Error := some "bad id" },
       { Name := "CollectNodeHWVersion", Node := none, Error := none }] ∧
    (singleNodeChecksJob exEnv exCtx exNodeA
        (exWorld [exPass "CheckNodeDiskUUID", exFail "CheckNodeProviderID" "bad id",
          exPass "CollectNodeHWVersion"])).shared.trace =
      [Event.getVM exNodeA, Event.CheckNode "CheckNodeDiskUUID" exNodeA,
       Event.CheckNode "CheckNodeProviderID" exNodeA,
       Event.CheckNode "CollectNodeHWVersion" exNodeA] :=
  ⟨rfl, (lookup_success_runs_every_node_check exEnv exCtx (exSched []) exNodeA
    { Self := "vm-a" }
    (exWorld [exPass "CheckNodeDiskUUID", exFail "CheckNodeProviderID" "bad id",
      exPass "CollectNodeHWVersion"]) rfl).2.2.2.1,
   (lookup_success_runs_every_node_check exEnv exCtx (exSched []) exNodeA
    { Self := "vm-a" }
    (exWorld [exPass "CheckNodeDiskUUID", exFail "CheckNodeProviderID" "bad id",
      exPass "CollectNodeHWVersion"]) rfl).2.1⟩



/-! ## Platform-spec conversion -/

theorem lookup_foldl_vCenters (k : String) (vcs : List VSpherePlatformVCenterSpec) :
    ∀ acc : List (String × VSpherePlatformVCenterSpec),
      ((vcs.foldl (fun vcenterMap v => (v.Server, v) :: vcenterMap) acc).lookup k).isSome =
        (decide (∃ v ∈ vcs, v.Server = k) || (acc.lookup k).isSome) := by
  induction vcs with
  | nil => intro acc; simp
  | cons v vcs ih =>
    intro acc
    rw [List.foldl_cons, ih]
    by_cases hv : v.Server = k
    · subst hv
      simp [List.lookup]
    · have hk : (k == v.Server) = false := by
        simp only [beq_eq_false_iff_ne, ne_eq]
        exact fun h => hv h.symm
      simp [List.lookup, hk, hv]

/-- The key is in the map built by `vCentersToMap` exactly when some vCenter has it as
its server. -/
theorem vCentersToMap_lookup_isSome (k : String) (vcs : List VSpherePlatformVCenterSpec) :
    ((vCentersToMap vcs).lookup k).isSome = decide (∃ v ∈ vcs, v.Server = k) := by
  unfold vCentersToMap
  rw [lookup_foldl_vCenters]
  simp

/-- What `convertToPlatformSpec` leaves in the context, in one equation. -/
theorem convertToPlatformSpec_eq (infra : Infrastructure) (checkContext : CheckContext)
    (config : VSphereConfig) (h : checkContext.VMConfig = some config) :
    convertToPlatformSpec infra checkContext =
      { checkContext with PlatformSpec := (some
          (if ∃ v ∈ (infraPlatformSpec infra).VCenters, v.Server = config.Workspace.VCenterIP
           then infraPlatformSpec infra
           else convertIntreeToPlatformSpec config (infraPlatformSpec infra))) } := by
  unfold convertToPlatformSpec infraPlatformSpec
  cases hi : infra.VSphere with
  | none => simp [h]
  | some vs =>
    simp only [h, Option.getD_some]
    by_cases hex : ∃ v ∈ vs.VCenters, v.Server = config.Workspace.VCenterIP
    · have hne : vs.VCenters.length ≠ 0 := by
        obtain ⟨v, hv, _⟩ := hex
        exact List.length_pos_iff_ne_nil.mpr (List.ne_nil_of_mem hv) |>.ne'
      have hs := vCentersToMap_lookup_isSome config.Workspace.VCenterIP vs.VCenters
      simp only [hex, decide_True] at hs
      have hn : ((vCentersToMap vs.VCenters).lookup config.Workspace.VCenterIP).isNone = false := by
        cases hl : (vCentersToMap vs.VCenters).lookup config.Workspace.VCenterIP with
        | none => simp [hl] at hs
        | some _ => rfl
      simp [hne, hn, hex]
    · have hs := vCentersToMap_lookup_isSome config.Workspace.VCenterIP vs.VCenters
      simp only [hex, decide_False] at hs
      have hn : ((vCentersToMap vs.VCenters).lookup config.Workspace.VCenterIP).isNone = true := by
        cases hl : (vCentersToMap vs.VCenters).lookup config.Workspace.VCenterIP with
        | none => rfl
        | some _ => simp [hl] at hs
      by_cases hlen : vs.VCenters.length = 0
      · simp [hlen, hex]
      · simp [hlen, hn, hex]

/-- C10: for a context with a non-nil in-tree `VMConfig`, `convertToPlatformSpec` leaves
the other fields alone and sets `PlatformSpec` to a copy of the infrastructure's vSphere
platform spec (empty if it has none), to which the in-tree vCenter is added only when it
is missing: if a copied vCenter already has `Server = config.Workspace.VCenterIP`
nothing is appended; otherwise, if `config.VirtualCenter` has an entry for that key,
exactly one vCenter (that server, the entry's `Datacenters` split on `,`) and exactly
one failure domain (that server, topology from the workspace datacenter, folder,
resource pool and default datastore) are appended; and if it has no entry nothing is
appended. -/
theorem convertToPlatformSpec_adds_missing_vcenter (infra : Infrastructure)
    (checkContext : CheckContext) (config : VSphereConfig)
    (h : checkContext.VMConfig = some config) :
    (convertToPlatformSpec infra checkContext).VMConfig = checkContext.VMConfig ∧
    (convertToPlatformSpec infra checkContext).Username = checkContext.Username ∧
    ((∃ v ∈ (infraPlatformSpec infra).VCenters, v.Server = config.Workspace.VCenterIP) →
      (convertToPlatformSpec infra checkContext).PlatformSpec = some (infraPlatformSpec infra)) ∧
    ((¬ ∃ v ∈ (infraPlatformSpec infra).VCenters, v.Server = config.Workspace.VCenterIP) →
      ∀ ccmVcenter, config.VirtualCenter.lookup config.Workspace.VCenterIP = some ccmVcenter →
      (convertToPlatformSpec infra checkContext).PlatformSpec = some
        { VCenters := (infraPlatformSpec infra).VCenters ++
            [{ Server := config.Workspace.VCenterIP, Port := 0,
               Datacenters := stringsSplit ccmVcenter.Datacenters ',' }],
          FailureDomains := (infraPlatformSpec infra).FailureDomains ++
            [{ Name := "", Region := "", Zone := "", Server := config.Workspace.VCenterIP,
               Topology :=
                { Datacenter := config.Workspace.Datacenter
                  ComputeCluster := ""
                  Networks := []
                  Datastore := config.Workspace.DefaultDatastore
                  ResourcePool := config.Workspace.ResourcePoolPath
                  Folder := config.Workspace.Folder } }] }) ∧
    ((¬ ∃ v ∈ (infraPlatformSpec infra).VCenters, v.Server = config.Workspace.VCenterIP) →
      config.VirtualCenter.lookup config.Workspace.VCenterIP = none →
      (convertToPlatformSpec infra checkContext).PlatformSpec = some (infraPlatformSpec infra)) := by
  rw [convertToPlatformSpec_eq infra checkContext config h]
  refine ⟨rfl, rfl, ?_, ?_, ?_⟩
  · intro hex
    simp [hex]
  · intro hex vc hl
    simp [hex, convertIntreeToPlatformSpec, hl]
  · intro hex hl
    simp [hex, convertIntreeToPlatformSpec, hl]

/-- C10, at a concrete input: the infrastructure names `vc0.example.com` only, the
in-tree configuration has `vc1.example.com`, which is appended with its two
datacenters. -/
theorem convertToPlatformSpec_adds_missing_vcenter_witness :
    (convertToPlatformSpec exInfra { exCtx with VMConfig := some exConfig }).PlatformSpec = some
      { VCenters :=
          [{ Server := "vc0.example.com", Port := 443, Datacenters := ["dc0"] },
           { Server := "vc1.example.com", Port := 0, Datacenters := ["dc1", "dc2"] }],
        FailureDomains :=
          [{ Name := "", Region := "", Zone := "", Server := "vc1.example.com",
             Topology :=
              { Datacenter := "dc1"
                ComputeCluster := ""
                Networks := []
                Datastore := "ds1"
                ResourcePool := "/dc1/host/c1/Resources"
                Folder := "/dc1/vm/cluster" } }] } :=
  (convertToPlatformSpec_adds_missing_vcenter exInfra { exCtx with VMConfig := some exConfig }
    exConfig rfl).2.2.2.1 (by decide) { User := "admin", Datacenters := "dc1,dc2" } (by decide)

/-! ## Lists of indices -/

theorem filterMap_getElem?_range {α : Type} (xs : List α) :
    (List.range xs.length).filterMap (fun i => xs[i]?) = xs := by
  induction xs using List.reverseRecOn with
  | nil => rfl
  | append_singleton ys a ih =>
    rw [List.length_append, List.length_singleton, List.range_succ, List.filterMap_append]
    have h1 : (List.range ys.length).filterMap (fun i => (ys ++ [a])[i]?) =
        (List.range ys.length).filterMap (fun i => ys[i]?) := by
      apply List.filterMap_congr
      intro i hi
      rw [List.mem_range] at hi
      exact List.getElem?_append_left hi
    rw [h1, ih]
    simp

theorem filterMap_filter_lt {α : Type} (xs : List α) (l : List Nat) :
    (l.filter (fun i => decide (i < xs.length))).filterMap (fun i => xs[i]?) =
      l.filterMap (fun i => xs[i]?) := by
  induction l with
  | nil => rfl
  | cons i l ih =>
    by_cases hi : i < xs.length
    · simp [List.filter_cons, hi, List.filterMap_cons, ih]
    · have hnone : xs[i]? = none := List.getElem?_eq_none (Nat.le_of_not_lt hi)
      simp [List.filter_cons, hi, List.filterMap_cons, hnone, ih]

/-- Reading a list at the indices of a duplicate-free list that names every position
yields a permutation of the list. -/
theorem filterMap_getElem?_perm {α : Type} (xs : List α) (l : List Nat) (hnd : l.Nodup)
    (hall : ∀ i, i < xs.length → i ∈ l) :
    (l.filterMap (fun i => xs[i]?)).Perm xs := by
  have h1 : (l.filter (fun i => decide (i < xs.length))).Perm (List.range xs.length) := by
    rw [List.perm_ext_iff_of_nodup (hnd.filter _) (List.nodup_range _)]
    intro i
    simp only [List.mem_filter, decide_eq_true_eq, List.mem_range]
    exact ⟨fun h => h.2, fun h => ⟨hall i h, h⟩⟩
  have h2 := List.Perm.filterMap (fun i => xs[i]?) h1
  rw [filterMap_filter_lt, filterMap_getElem?_range] at h2
  exact h2

/-- The units `runJobs` runs, as a list: `runJobs` applies them one after the other. -/
theorem runJobs_eq_foldl {σ : Type} (jobs : List (World σ → World σ)) (order : List Nat)
    (w : World σ) :
    runJobs jobs order w = (order.filterMap (fun i => jobs[i]?)).foldl (fun w job => job w) w := by
  unfold runJobs
  induction order generalizing w with
  | nil => rfl
  | cons i l ih =>
    cases hj : jobs[i]? with
    | none => simp [List.foldl_cons, List.filterMap_cons, hj, ih]
    | some job => simp [List.foldl_cons, List.filterMap_cons, hj, ih]

/-- Every unit `runJobs` runs is an accepted unit. -/
theorem mem_of_mem_filterMap_getElem? {α : Type} (xs : List α) (l : List Nat) (a : α)
    (h : a ∈ l.filterMap (fun i => xs[i]?)) : a ∈ xs := by
  simp only [List.mem_filterMap] at h
  obtain ⟨i, _, hi⟩ := h
  exact List.mem_iff_getElem?.mpr ⟨i, hi⟩

/-! ## The scheduling functions, as equations -/

theorem enqueueClusterChecks_foldl {σ : Type} (ctx : CheckContext)
    (checks : List (String × ClusterCheck)) :
    ∀ s : Sched σ,
      checks.foldl (fun s entry =>
        s.RunGoroutine (.cluster entry.1) (singleClusterCheckJob ctx entry.1 entry.2)) s =
      { world :=
          { nodeChecks := s.world.nodeChecks,
            shared :=
              { resultCollector := s.world.shared.resultCollector,
                trace := (s.world.shared.trace ++
                  checks.map (fun entry => Event.RunGoroutine (.cluster entry.1))) } },
        checkRunner :=
          { jobs := (s.checkRunner.jobs ++
              checks.map (fun entry => singleClusterCheckJob ctx entry.1 entry.2)) } } := by
  induction checks with
  | nil => intro s; simp
  | cons entry checks ih =>
    intro s
    rw [List.foldl_cons, ih]
    simp [Sched.RunGoroutine, CheckThreadPool.RunGoroutine, Shared.log]

/-- `enqueueClusterChecks` hands one unit per registered cluster check to the pool and
touches nothing else. -/
theorem enqueueClusterChecks_eq {σ : Type} (env : Env) (ctx : CheckContext) (s : Sched σ) :
    enqueueClusterChecks env ctx s =
      { world :=
          { nodeChecks := s.world.nodeChecks,
            shared :=
              { resultCollector := s.world.shared.resultCollector,
                trace := (s.world.shared.trace ++
                  env.clusterChecks.map (fun entry => Event.RunGoroutine (.cluster entry.1))) } },
        checkRunner :=
          { jobs := (s.checkRunner.jobs ++
              env.clusterChecks.map (fun entry =>
                singleClusterCheckJob ctx entry.1 entry.2)) } } :=
  enqueueClusterChecks_foldl ctx env.clusterChecks s

theorem enqueueSingleNodeChecks_foldl {σ : Type} (env : Env) (ctx : CheckContext)
    (nodes : List Node) :
    ∀ s : Sched σ,
      nodes.foldl (fun s node => enqueueSingleNodeChecks env ctx s node) s =
      { world :=
          { nodeChecks := s.world.nodeChecks,
            shared :=
              { resultCollector := s.world.shared.resultCollector,
                trace := (s.world.shared.trace ++
                  nodes.map (fun node => Event.RunGoroutine (.node node))) } },
        checkRunner :=
          { jobs := (s.checkRunner.jobs ++
              nodes.map (fun node => singleNodeChecksJob env ctx node)) } } := by
  induction nodes with
  | nil => intro s; simp
  | cons node nodes ih =>
    intro s
    rw [List.foldl_cons, ih]
    simp [enqueueSingleNodeChecks, Sched.RunGoroutine, CheckThreadPool.RunGoroutine, Shared.log]

/-- The `StartCheck` loop of `enqueueNodeChecks`. -/
theorem startChecks_eq {σ : Type} (w : World σ) :
    rangeNodeChecks (fun nodeCheck sh =>
      (nodeCheck.StartCheck, sh.log (.StartCheck nodeCheck.Name))) w =
      { nodeChecks := w.nodeChecks.map (fun c => c.StartCheck),
        shared :=
          { resultCollector := w.shared.resultCollector,
            trace := (w.shared.trace ++
              w.nodeChecks.map (fun c => Event.StartCheck c.Name)) } } := by
  unfold rangeNodeChecks
  rw [rangeNodeChecksAux_eq _ (fun c => c.StartCheck) (fun _ => [])
    (fun c => [Event.StartCheck c.Name])]
  · simp [flatMap_singleton_fun, flatMap_nil_fun]
  · intro c s
    simp [Shared.log]

/-- `finishNodeChecks` calls `FinishCheck` on every registered check, in registration
order, and touches nothing else. -/
theorem finishNodeChecks_eq {σ : Type} (ctx : CheckContext) (w : World σ) :
    finishNodeChecks ctx w =
      { nodeChecks := w.nodeChecks.map (fun c => c.FinishCheck ctx),
        shared :=
          { resultCollector := w.shared.resultCollector,
            trace := (w.shared.trace ++
              w.nodeChecks.map (fun c => Event.FinishCheck c.Name)) } } := by
  unfold finishNodeChecks rangeNodeChecks
  rw [rangeNodeChecksAux_eq _ (fun c => c.FinishCheck ctx) (fun _ => [])
    (fun c => [Event.FinishCheck c.Name])]
  · simp [flatMap_singleton_fun, flatMap_nil_fun]
  · intro c s
    simp [Shared.log]

/-- `enqueueNodeChecks` when the node list cannot be retrieved. -/
theorem enqueueNodeChecks_error {σ : Type} (env : Env) (ctx : CheckContext) (s : Sched σ)
    (err : GoError) (h : env.ListNodes = .error err) :
    enqueueNodeChecks env ctx s =
      ({ world :=
          { nodeChecks := s.world.nodeChecks,
            shared :=
              { resultCollector := s.world.shared.resultCollector,
                trace := (s.world.shared.trace ++ [Event.ListNodes]) } },
         checkRunner := s.checkRunner }, some err) := by
  unfold enqueueNodeChecks
  simp [h, Shared.log]

/-- `enqueueNodeChecks` when the node list is retrieved. -/
theorem enqueueNodeChecks_ok {σ : Type} (env : Env) (ctx : CheckContext) (s : Sched σ)
    (nodes : List Node) (h : env.ListNodes = .ok nodes) :
    enqueueNodeChecks env ctx s =
      ({ world :=
          { nodeChecks := s.world.nodeChecks.map (fun c => c.StartCheck),
            shared :=
              { resultCollector := s.world.shared.resultCollector,
                trace := (s.world.shared.trace ++ [Event.ListNodes] ++
                  s.world.nodeChecks.map (fun c => Event.StartCheck c.Name) ++
                  nodes.map (fun node => Event.RunGoroutine (.node node))) } },
         checkRunner :=
          { jobs := (s.checkRunner.jobs ++
              nodes.map (fun node => singleNodeChecksJob env ctx node)) } }, none) := by
  unfold enqueueNodeChecks
  simp only [h]
  rw [enqueueSingleNodeChecks_foldl, startChecks_eq]
  simp [Shared.log]

/-! ## `runChecks`, path by path -/

/-- The run when `connect` fails. -/
theorem runChecks_connect_error {σ : Type} (env : Env) (nodeChecks : List (NodeCheck σ))
    (err : GoError) (h : env.connect = .error err) :
    runChecks env nodeChecks =
      { resultCollector := some NewResultsCollector, err := some err,
        world :=
          { nodeChecks := nodeChecks,
            shared :=
              { resultCollector := NewResultsCollector,
                trace := [Event.StartMetricCollection, Event.connect] } } } := by
  unfold runChecks
  simp [h, Shared.log]

/-- The run when the user session cannot be read. -/
theorem runChecks_userSession_error {σ : Type} (env : Env) (nodeChecks : List (NodeCheck σ))
    (ctx0 : CheckContext) (err : GoError) (h : env.connect = .ok ctx0)
    (hu : env.UserSession = .error err) :
    runChecks env nodeChecks =
      { resultCollector := some NewResultsCollector, err := some err,
        world :=
          { nodeChecks := nodeChecks,
            shared :=
              { resultCollector := NewResultsCollector,
                trace := [Event.StartMetricCollection, Event.connect, Event.UserSession,
                  Event.Logout] } } } := by
  unfold runChecks runChecksConnected
  simp [h, hu, Shared.log]

/-- The run when the infrastructure object cannot be read. -/
theorem runChecks_getInfrastructure_error {σ : Type} (env : Env)
    (nodeChecks : List (NodeCheck σ)) (ctx0 : CheckContext) (user : String) (err : GoError)
    (h : env.connect = .ok ctx0) (hu : env.UserSession = .ok user)
    (hi : env.GetInfrastructure = .error err) :
    runChecks env nodeChecks =
      { resultCollector := none, err := some err,
        world :=
          { nodeChecks := nodeChecks,
            shared :=
              { resultCollector := NewResultsCollector,
                trace := [Event.StartMetricCollection, Event.connect, Event.UserSession,
                  Event.GetInfrastructure, Event.Logout] } } } := by
  unfold runChecks runChecksConnected
  simp [h, hu, hi, Shared.log]

/-- The run when the node list cannot be retrieved. -/
theorem runChecks_listNodes_error {σ : Type} (env : Env) (nodeChecks : List (NodeCheck σ))
    (ctx0 : CheckContext) (user : String) (infra : Infrastructure) (err : GoError)
    (h : env.connect = .ok ctx0) (hu : env.UserSession = .ok user)
    (hi : env.GetInfrastructure = .ok infra) (hl : env.ListNodes = .error err) :
    runChecks env nodeChecks =
      { resultCollector := some NewResultsCollector, err := some err,
        world :=
          { nodeChecks := nodeChecks,
            shared :=
              { resultCollector := NewResultsCollector,
                trace := (traceToListNodes env ++
                  [Event.FinishedAllChecks, Event.Logout]) } } } := by
  unfold runChecks runChecksConnected
  simp only [h, hu, hi]
  rw [enqueueNodeChecks_error _ _ _ err hl, enqueueClusterChecks_eq]
  simp [Shared.log, World.FinishedAllChecks, traceToListNodes, NewCheckThreadPool]

/-- The run when `Wait` returns an error. -/
theorem runChecks_wait_error {σ : Type} (env : Env) (nodeChecks : List (NodeCheck σ))
    (ctx0 : CheckContext) (user : String) (infra : Infrastructure) (nodes : List Node)
    (err : GoError)
    (h : env.connect = .ok ctx0) (hu : env.UserSession = .ok user)
    (hi : env.GetInfrastructure = .ok infra) (hl : env.ListNodes = .ok nodes)
    (hw : env.WaitErr = some err) :
    runChecks env nodeChecks =
      { resultCollector := some
          (worldAfterWait env (runContext ctx0 user infra) nodeChecks nodes).shared.resultCollector,
        err := some err,
        world :=
          { nodeChecks :=
              (worldAfterWait env (runContext ctx0 user infra) nodeChecks nodes).nodeChecks,
            shared :=
              { resultCollector :=
                  (worldAfterWait env (runContext ctx0 user infra) nodeChecks
                    nodes).shared.resultCollector,
                trace :=
                  ((worldAfterWait env (runContext ctx0 user infra) nodeChecks
                    nodes).shared.trace ++
                  [Event.Wait, Event.FinishedAllChecks, Event.Logout]) } } } := by
  unfold runChecks runChecksConnected
  simp only [h, hu, hi]
  rw [enqueueNodeChecks_ok _ _ _ nodes hl, enqueueClusterChecks_eq]
  simp [Shared.log, World.FinishedAllChecks, traceToListNodes, NewCheckThreadPool,
    CheckThreadPool.Wait, hw, worldAfterWait, scheduledJobs, scheduledWorld, runContext]

/-- The run when every stage succeeds. -/
theorem runChecks_ok {σ : Type} (env : Env) (nodeChecks : List (NodeCheck σ))
    (ctx0 : CheckContext) (user : String) (infra : Infrastructure) (nodes : List Node)
    (h : env.connect = .ok ctx0) (hu : env.UserSession = .ok user)
    (hi : env.GetInfrastructure = .ok infra) (hl : env.ListNodes = .ok nodes)
    (hw : env.WaitErr = none) :
    runChecks env nodeChecks =
      { resultCollector := some
          (worldAfterWait env (runContext ctx0 user infra) nodeChecks nodes).shared.resultCollector,
        err := none,
        world :=
          { nodeChecks :=
              (worldAfterWait env (runContext ctx0 user infra) nodeChecks nodes).nodeChecks.map
                (fun c => c.FinishCheck (runContext ctx0 user infra)),
            shared :=
              { resultCollector :=
                  (worldAfterWait env (runContext ctx0 user infra) nodeChecks
                    nodes).shared.resultCollector,
                trace :=
                  ((worldAfterWait env (runContext ctx0 user infra) nodeChecks
                    nodes).shared.trace ++ [Event.Wait] ++
                  (worldAfterWait env (runContext ctx0 user infra) nodeChecks
                    nodes).nodeChecks.map (fun c => Event.FinishCheck c.Name) ++
                  [Event.FinishedAllChecks, Event.Logout]) } } } := by
  unfold runChecks runChecksConnected
  simp only [h, hu, hi]
  rw [enqueueNodeChecks_ok _ _ _ nodes hl, enqueueClusterChecks_eq]
  simp [Shared.log, World.FinishedAllChecks, traceToListNodes, NewCheckThreadPool,
    CheckThreadPool.Wait, hw, worldAfterWait, scheduledJobs, scheduledWorld, runContext,
    finishNodeChecks_eq]

/-! ## What the pool's units may change -/

theorem World.Extends.refl {σ : Type} (w : World σ) : w.Extends w :=
  ⟨rfl, [], [], by simp, by simp, by simp⟩

theorem World.Extends.trans {σ : Type} {u v w : World σ} (h1 : u.Extends v)
    (h2 : v.Extends w) : u.Extends w := by
  obtain ⟨i1, evs1, rs1, t1, k1, r1⟩ := h1
  obtain ⟨i2, evs2, rs2, t2, k2, r2⟩ := h2
  refine ⟨i2.trans i1, evs1 ++ evs2, rs1 ++ rs2, ?_, ?_, ?_⟩
  · rw [t2, t1, List.append_assoc]
  · intro e he
    rcases List.mem_append.mp he with h | h
    · exact k1 e h
    · exact k2 e h
  · rw [r2, r1, List.append_assoc]

theorem singleClusterCheckJob_extends {σ : Type} (ctx : CheckContext) (name : String)
    (checkFunc : ClusterCheck) (w : World σ) :
    w.Extends (singleClusterCheckJob ctx name checkFunc w) := by
  unfold singleClusterCheckJob
  rw [runSingleClusterCheck_eq]
  refine ⟨rfl, [Event.ClusterCheck name], _, rfl, ?_, rfl⟩
  intro e he
  simp only [List.mem_singleton] at he
  subst he
  rfl

theorem singleNodeChecksJob_extends {σ : Type} (env : Env) (ctx : CheckContext) (node : Node)
    (w : World σ) : w.Extends (singleNodeChecksJob env ctx node w) := by
  cases h : getVM env ctx node with
  | error e =>
    rw [singleNodeChecksJob_error env ctx node w e h]
    refine ⟨rfl, [Event.getVM node], _, rfl, ?_, rfl⟩
    intro ev he
    simp only [List.mem_singleton] at he
    subst he
    rfl
  | ok vm =>
    rw [singleNodeChecksJob_ok env ctx node w vm h]
    refine ⟨?_, [Event.getVM node] ++ w.nodeChecks.map (fun c => Event.CheckNode c.Name node),
      _, ?_, ?_, rfl⟩
    · simp [NodeCheck.CheckNode, Function.comp_def]
    · simp [List.append_assoc]
    · intro ev he
      simp only [List.mem_append, List.mem_singleton, List.mem_map] at he
      rcases he with rfl | ⟨c, _, rfl⟩ <;> rfl

/-- Every unit a run hands to the pool only extends the world. -/
theorem scheduledJobs_extends {σ : Type} (env : Env) (ctx : CheckContext) (nodes : List Node)
    (job : World σ → World σ) (hjob : job ∈ scheduledJobs env ctx nodes) (w : World σ) :
    w.Extends (job w) := by
  unfold scheduledJobs at hjob
  simp only [List.mem_append, List.mem_map] at hjob
  rcases hjob with ⟨entry, _, rfl⟩ | ⟨node, _, rfl⟩
  · exact singleClusterCheckJob_extends ctx entry.1 entry.2 w
  · exact singleNodeChecksJob_extends env ctx node w

theorem foldl_jobs_extends {σ : Type} (js : List (World σ → World σ))
    (hjs : ∀ job ∈ js, ∀ w : World σ, w.Extends (job w)) :
    ∀ w : World σ, w.Extends (js.foldl (fun w job => job w) w) := by
  induction js with
  | nil => intro w; exact World.Extends.refl w
  | cons j js ih =>
    intro w
    rw [List.foldl_cons]
    exact (hjs j (List.mem_cons_self _ _) w).trans
      (ih (fun job hj => hjs job (List.mem_cons_of_mem _ hj)) (j w))

/-- Whatever the pool's schedule, the world when `Wait` returns extends the world at
the moment `Wait` was called. -/
theorem worldAfterWait_extends {σ : Type} (env : Env) (ctx : CheckContext)
    (nodeChecks : List (NodeCheck σ)) (nodes : List Node) :
    (scheduledWorld env nodeChecks nodes).Extends (worldAfterWait env ctx nodeChecks nodes) := by
  unfold worldAfterWait
  rw [runJobs_eq_foldl]
  apply foldl_jobs_extends
  intro job hjob w
  exact scheduledJobs_extends env ctx nodes job
    (mem_of_mem_filterMap_getElem? _ _ job hjob) w

theorem isFinishCheck_of_isWorker (e : Event) (h : e.isWorker = true) :
    e.isFinishCheck = false := by
  cases e <;> first | rfl | simp [Event.isWorker] at h

theorem isStartCheck_of_isWorker (e : Event) (h : e.isWorker = true) :
    e.isStartCheck = false := by
  cases e <;> first | rfl | simp [Event.isWorker] at h

/-- The names of the registered checks when `Wait` returns are the registered names. -/
theorem worldAfterWait_names {σ : Type} (env : Env) (ctx : CheckContext)
    (nodeChecks : List (NodeCheck σ)) (nodes : List Node) :
    (worldAfterWait env ctx nodeChecks nodes).nodeChecks.map (fun c => c.Name) =
      nodeChecks.map (fun c => c.Name) := by
  have h := (worldAfterWait_extends env ctx nodeChecks nodes).1
  have h2 := congrArg (List.map (fun i : NodeCheckImpl σ => i.Name)) h
  simp only [List.map_map, scheduledWorld] at h2
  simpa [Function.comp_def, NodeCheck.Name, NodeCheck.StartCheck] using h2

/-- No event of the scheduler goroutine before `Wait` is a `FinishCheck`. -/
theorem scheduledWorld_trace_not_finish {σ : Type} (env : Env) (nodeChecks : List (NodeCheck σ))
    (nodes : List Node) :
    ∀ e ∈ (scheduledWorld env nodeChecks nodes).shared.trace, e.isFinishCheck = false := by
  intro e he
  simp only [scheduledWorld, traceToListNodes, List.mem_append, List.mem_map, List.mem_cons,
    List.mem_singleton, List.not_mem_nil, or_false] at he
  rcases he with ((((h | h | h | h) | ⟨x, _, h⟩) | h) | ⟨c, _, h⟩) | ⟨n, _, h⟩ <;>
    subst h <;> rfl

theorem traceToListNodes_not_finish (env : Env) :
    ∀ e ∈ traceToListNodes env, e.isFinishCheck = false := by
  intro e he
  simp only [traceToListNodes, List.mem_append, List.mem_map, List.mem_cons,
    List.mem_singleton, List.not_mem_nil, or_false] at he
  rcases he with ((h | h | h | h) | ⟨x, _, h⟩) | h <;> subst h <;> rfl


/-! ## Start of the node checks -/

theorem filter_isStartCheck_scheduledWorld {σ : Type} (env : Env)
    (nodeChecks : List (NodeCheck σ)) (nodes : List Node) :
    (scheduledWorld env nodeChecks nodes).shared.trace.filter Event.isStartCheck =
      nodeChecks.map (fun c => Event.StartCheck c.Name) := by
  have h1 : (env.clusterChecks.map
      (fun entry => Event.RunGoroutine (.cluster entry.1))).filter Event.isStartCheck = [] := by
    rw [List.filter_eq_nil_iff]
    intro e he
    simp only [List.mem_map] at he
    obtain ⟨x, _, rfl⟩ := he
    simp [Event.isStartCheck]
  have h2 : (nodes.map
      (fun node => Event.RunGoroutine (.node node))).filter Event.isStartCheck = [] := by
    rw [List.filter_eq_nil_iff]
    intro e he
    simp only [List.mem_map] at he
    obtain ⟨x, _, rfl⟩ := he
    simp [Event.isStartCheck]
  have h3 : (nodeChecks.map (fun c => Event.StartCheck c.Name)).filter Event.isStartCheck =
      nodeChecks.map (fun c => Event.StartCheck c.Name) := by
    rw [List.filter_eq_self]
    intro e he
    simp only [List.mem_map] at he
    obtain ⟨x, _, rfl⟩ := he
    rfl
  simp only [scheduledWorld, traceToListNodes, List.filter_append, h1, h2, h3]
  simp [List.filter, Event.isStartCheck]

theorem filter_isStartCheck_workers (evs : List Event) (h : ∀ e ∈ evs, e.isWorker = true) :
    evs.filter Event.isStartCheck = [] := by
  rw [List.filter_eq_nil_iff]
  intro e he
  simp [isStartCheck_of_isWorker e (h e he)]

theorem filter_isStartCheck_finish {σ : Type} (cs : List (NodeCheck σ)) :
    (cs.map (fun c => Event.FinishCheck c.Name)).filter Event.isStartCheck = [] := by
  rw [List.filter_eq_nil_iff]
  intro e he
  simp only [List.mem_map] at he
  obtain ⟨x, _, rfl⟩ := he
  simp [Event.isStartCheck]

/-- C8, as stated, fails: in this run the node list cannot be retrieved, and the run
ends without a single `StartCheck`; the registered check `p` is left as it was. -/
theorem listNodes_failure_skips_startCheck :
    (runChecks exEnvListFails [exPass "p"]).err = some "nodes unavailable" ∧
    (runChecks exEnvListFails [exPass "p"]).world.shared.trace =
      [Event.StartMetricCollection, Event.connect, Event.UserSession, Event.GetInfrastructure,
       Event.RunGoroutine (.cluster "CheckFolder"), Event.RunGoroutine (.cluster "CheckTask"),
       Event.ListNodes, Event.FinishedAllChecks, Event.Logout] ∧
    Event.StartCheck "p" ∉ (runChecks exEnvListFails [exPass "p"]).world.shared.trace ∧
    (runChecks exEnvListFails [exPass "p"]).world.nodeChecks.map (fun c => c.state) = [7] := by
  refine ⟨rfl, rfl, ?_, rfl⟩
  have h : (runChecks exEnvListFails [exPass "p"]).world.shared.trace =
      [Event.StartMetricCollection, Event.connect, Event.UserSession, Event.GetInfrastructure,
       Event.RunGoroutine (.cluster "CheckFolder"), Event.RunGoroutine (.cluster "CheckTask"),
       Event.ListNodes, Event.FinishedAllChecks, Event.Logout] := rfl
  rw [h]
  decide

/-- C8, amended: `enqueueNodeChecks` retrieves the node list first. When that succeeds it
calls `StartCheck` exactly once on every registered node check, in registration order,
after the retrieval and before it submits any node work unit; when it fails, it returns
the error, calls `StartCheck` on no check and submits nothing. For a whole run: a run
whose node-list retrieval fails has no `StartCheck` call at all, and a run that
retrieves the node list has exactly one per registered check. -/
theorem startCheck_after_listNodes_before_node_units {σ : Type} (env : Env)
    (ctx : CheckContext) (s : Sched σ) (nodeChecks : List (NodeCheck σ)) :
    (∀ nodes, env.ListNodes = .ok nodes →
      (enqueueNodeChecks env ctx s).2 = none ∧
      (enqueueNodeChecks env ctx s).1.world.shared.trace =
        s.world.shared.trace ++ [Event.ListNodes] ++
          s.world.nodeChecks.map (fun c => Event.StartCheck c.Name) ++
          nodes.map (fun node => Event.RunGoroutine (.node node)) ∧
      (enqueueNodeChecks env ctx s).1.world.nodeChecks =
        s.world.nodeChecks.map (fun c => c.StartCheck)) ∧
    (∀ err, env.ListNodes = .error err →
      (enqueueNodeChecks env ctx s).2 = some err ∧
      (enqueueNodeChecks env ctx s).1.world.shared.trace =
        s.world.shared.trace ++ [Event.ListNodes] ∧
      (enqueueNodeChecks env ctx s).1.world.nodeChecks = s.world.nodeChecks ∧
      (enqueueNodeChecks env ctx s).1.checkRunner.jobs = s.checkRunner.jobs) ∧
    (∀ err, env.ListNodes = .error err →
      (runChecks env nodeChecks).world.shared.trace.filter Event.isStartCheck = []) ∧
    (∀ nodes, env.ListNodes = .ok nodes →
      Event.ListNodes ∈ (runChecks env nodeChecks).world.shared.trace →
      (runChecks env nodeChecks).world.shared.trace.filter Event.isStartCheck =
        nodeChecks.map (fun c => Event.StartCheck c.Name)) := by
  refine ⟨?_, ?_, ?_, ?_⟩
  · intro nodes hl
    rw [enqueueNodeChecks_ok env ctx s nodes hl]
    exact ⟨rfl, rfl, rfl⟩
  · intro err hl
    rw [enqueueNodeChecks_error env ctx s err hl]
    exact ⟨rfl, rfl, rfl, rfl⟩
  · intro err hl
    cases h : env.connect with
    | error e => rw [runChecks_connect_error env nodeChecks e h]; rfl
    | ok ctx0 =>
      cases hu : env.UserSession with
      | error e => rw [runChecks_userSession_error env nodeChecks ctx0 e h hu]; rfl
      | ok user =>
        cases hi : env.GetInfrastructure with
        | error e =>
          rw [runChecks_getInfrastructure_error env nodeChecks ctx0 user e h hu hi]; rfl
        | ok infra =>
          rw [runChecks_listNodes_error env nodeChecks ctx0 user infra err h hu hi hl]
          rw [List.filter_eq_nil_iff]
          intro e he
          simp only [traceToListNodes, List.mem_append, List.mem_map, List.mem_cons,
            List.mem_singleton, List.not_mem_nil, or_false] at he
          rcases he with (((h1 | h1 | h1 | h1) | ⟨x, _, h1⟩) | h1) | (h1 | h1) <;>
            subst h1 <;> simp [Event.isStartCheck]
  · intro nodes hl hmem
    cases h : env.connect with
    | error e =>
      rw [runChecks_connect_error env nodeChecks e h] at hmem
      simp at hmem
    | ok ctx0 =>
      cases hu : env.UserSession with
      | error e =>
        rw [runChecks_userSession_error env nodeChecks ctx0 e h hu] at hmem
        simp at hmem
      | ok user =>
        cases hi : env.GetInfrastructure with
        | error e =>
          rw [runChecks_getInfrastructure_error env nodeChecks ctx0 user e h hu hi] at hmem
          simp at hmem
        | ok infra =>
          obtain ⟨_, evs, rs, ht, hk, _⟩ :=
            worldAfterWait_extends env (runContext ctx0 user infra) nodeChecks nodes
          cases hw : env.WaitErr with
          | some e =>
            rw [runChecks_wait_error env nodeChecks ctx0 user infra nodes e h hu hi hl hw]
            simp only [ht, List.filter_append, filter_isStartCheck_scheduledWorld,
              filter_isStartCheck_workers evs hk]
            simp [List.filter, Event.isStartCheck]
          | none =>
            rw [runChecks_ok env nodeChecks ctx0 user infra nodes h hu hi hl hw]
            simp only [ht, List.filter_append, filter_isStartCheck_scheduledWorld,
              filter_isStartCheck_workers evs hk, filter_isStartCheck_finish]
            simp [List.filter, Event.isStartCheck]

/-! ## Run-level errors and the returned collector -/



/-- C6: evaluation of `runChecks` where the code departs from the claim. `connect` and
the user-session lookup succeed and `GetInfrastructure` fails: the caller receives a nil
collector together with the error (line 89 returns `nil, err`, where every other error
path returns `resultCollector, err`). -/
theorem infrastructure_error_returns_nil_collector :
    (runChecks exEnvInfraFails [exPass "p"]).resultCollector = none ∧
    (runChecks exEnvInfraFails [exPass "p"]).err = some "infrastructure unavailable" :=
  ⟨rfl, rfl⟩

/-- On every other path the caller receives the collector: the returned pointer is nil
exactly when `GetInfrastructure` is reached and fails. -/
theorem runChecks_collector_nil_iff {σ : Type} (env : Env) (nodeChecks : List (NodeCheck σ)) :
    (runChecks env nodeChecks).resultCollector = none ↔
      ∃ ctx0 user err, env.connect = .ok ctx0 ∧ env.UserSession = .ok user ∧
        env.GetInfrastructure = .error err := by
  cases h : env.connect with
  | error e1 => rw [runChecks_connect_error env nodeChecks e1 h]; simp
  | ok ctx0 =>
    cases hu : env.UserSession with
    | error e1 => rw [runChecks_userSession_error env nodeChecks ctx0 e1 h hu]; simp
    | ok user =>
      cases hi : env.GetInfrastructure with
      | error e1 =>
        rw [runChecks_getInfrastructure_error env nodeChecks ctx0 user e1 h hu hi]; simp
      | ok infra =>
        cases hl : env.ListNodes with
        | error e1 =>
          rw [runChecks_listNodes_error env nodeChecks ctx0 user infra e1 h hu hi hl]; simp
        | ok nodes =>
          cases hw : env.WaitErr with
          | some e1 =>
            rw [runChecks_wait_error env nodeChecks ctx0 user infra nodes e1 h hu hi hl hw]
            simp
          | none =>
            rw [runChecks_ok env nodeChecks ctx0 user infra nodes h hu hi hl hw]; simp

/-! ## Counting the results of a run -/

theorem filterMap_getElem?_map {α β : Type} (f : α → β) (xs : List α) (l : List Nat) :
    l.filterMap (fun i => (xs.map f)[i]?) = (l.filterMap (fun i => xs[i]?)).map f := by
  induction l with
  | nil => rfl
  | cons i l ih =>
    simp only [List.getElem?_map] at ih ⊢
    cases hx : xs[i]? with
    | none => simp [List.filterMap_cons, hx, ih]
    | some a => simp [List.filterMap_cons, hx, ih]

theorem foldl_addsPassing {σ : Type} (impls : List (NodeCheckImpl σ))
    (ps : List ((World σ → World σ) × Nat))
    (hps : ∀ p ∈ ps, AddsPassing impls p.1 p.2) :
    ∀ w : World σ, w.nodeChecks.map (fun c => c.impl) = impls →
      ∃ rs, (ps.foldl (fun w p => p.1 w) w).shared.resultCollector.results =
          w.shared.resultCollector.results ++ rs ∧
        rs.length = (ps.map (fun p => p.2)).sum ∧ ∀ r ∈ rs, r.Error = none := by
  induction ps with
  | nil =>
    intro w _
    exact ⟨[], by simp, by simp, by simp⟩
  | cons p ps ih =>
    intro w hw
    obtain ⟨hi, rs1, e1, l1, n1⟩ := hps p (List.mem_cons_self _ _) w hw
    obtain ⟨rs2, e2, l2, n2⟩ := ih (fun q hq => hps q (List.mem_cons_of_mem _ hq)) (p.1 w) hi
    refine ⟨rs1 ++ rs2, ?_, ?_, ?_⟩
    · rw [List.foldl_cons, e2, e1, List.append_assoc]
    · simp [l1, l2]
    · intro r hr
      rcases List.mem_append.mp hr with h | h
      · exact n1 r h
      · exact n2 r h

theorem singleClusterCheckJob_addsPassing {σ : Type} (impls : List (NodeCheckImpl σ))
    (ctx : CheckContext) (name : String) (checkFunc : ClusterCheck)
    (hpass : checkFunc ctx = none) :
    AddsPassing impls (singleClusterCheckJob (σ := σ) ctx name checkFunc) 1 := by
  intro w hw
  unfold singleClusterCheckJob
  rw [runSingleClusterCheck_eq]
  refine ⟨hw, _, rfl, rfl, ?_⟩
  intro r hr
  simp only [List.mem_singleton] at hr
  subst hr
  exact hpass

theorem singleNodeChecksJob_addsPassing {σ : Type} (nodeChecks : List (NodeCheck σ))
    (env : Env) (ctx : CheckContext) (node : Node) (vm : VirtualMachine)
    (hvm : getVM env ctx node = .ok vm)
    (hpass : ∀ c ∈ nodeChecks, ∀ st, (c.impl.CheckNode ctx node vm st).1 = none) :
    AddsPassing (nodeChecks.map (fun c => c.impl)) (singleNodeChecksJob env ctx node)
      nodeChecks.length := by
  intro w hw
  rw [singleNodeChecksJob_ok env ctx node w vm hvm]
  refine ⟨?_, _, rfl, ?_, ?_⟩
  · rw [← hw]
    simp [NodeCheck.CheckNode, Function.comp_def]
  · have := congrArg List.length hw
    simpa using this
  · intro r hr
    simp only [List.mem_map] at hr
    obtain ⟨c, hc, rfl⟩ := hr
    have hmem : c.impl ∈ nodeChecks.map (fun c => c.impl) := by
      rw [← hw]
      exact List.mem_map_of_mem _ hc
    simp only [List.mem_map] at hmem
    obtain ⟨c0, hc0, hc0e⟩ := hmem
    show (c.impl.CheckNode ctx node vm c.state).1 = none
    rw [← hc0e]
    exact hpass c0 hc0 c.state

/-- C4: in a run with N registered cluster checks that all succeed, M listed nodes whose
lookups all succeed and K registered node checks that succeed on every node, in which
the collaborator calls up to the node listing and the pool's `Wait` succeed and the pool
runs every submitted unit before `Wait` returns, the returned collector holds exactly
`N + M * K` results, every one with a nil `Error`, and the returned error is nil. -/
theorem all_passing_run_collects_N_plus_MK {σ : Type} (env : Env)
    (nodeChecks : List (NodeCheck σ)) (ctx0 : CheckContext) (user : String)
    (infra : Infrastructure) (nodes : List Node)
    (hconn : env.connect = .ok ctx0) (huser : env.UserSession = .ok user)
    (hinfra : env.GetInfrastructure = .ok infra) (hlist : env.ListNodes = .ok nodes)
    (hwait : env.WaitErr = none)
    (hpool : ∀ i, i < env.clusterChecks.length + nodes.length → i ∈ env.poolOrder)
    (hcluster : ∀ entry ∈ env.clusterChecks, entry.2 (runContext ctx0 user infra) = none)
    (hlookup : ∀ node ∈ nodes, ∃ vm, getVM env (runContext ctx0 user infra) node = .ok vm)
    (hnode : ∀ c ∈ nodeChecks, ∀ node ∈ nodes, ∀ vm st,
      (c.impl.CheckNode (runContext ctx0 user infra) node vm st).1 = none) :
    ∃ rc, (runChecks env nodeChecks).resultCollector = some rc ∧
      rc.results.length = env.clusterChecks.length + nodes.length * nodeChecks.length ∧
      (∀ r ∈ rc.results, r.Error = none) ∧
      (runChecks env nodeChecks).err = none := by
  rw [runChecks_ok env nodeChecks ctx0 user infra nodes hconn huser hinfra hlist hwait]
  refine ⟨_, rfl, ?_, ?_, rfl⟩ <;>
  · -- the units with the number of results each of them inserts
    let ctx := runContext ctx0 user infra
    let pairs : List ((World σ → World σ) × Nat) :=
      env.clusterChecks.map (fun entry => (singleClusterCheckJob ctx entry.1 entry.2, 1)) ++
        nodes.map (fun node => (singleNodeChecksJob env ctx node, nodeChecks.length))
    have hjobs : scheduledJobs (σ := σ) env ctx nodes = pairs.map (fun p => p.1) := by
      simp [scheduledJobs, pairs, Function.comp_def]
    have hlen : pairs.length = env.clusterChecks.length + nodes.length := by
      simp [pairs]
    have hperm : (env.poolOrder.dedup.filterMap (fun i => pairs[i]?)).Perm pairs := by
      apply filterMap_getElem?_perm _ _ (List.nodup_dedup _)
      intro i hi
      rw [List.mem_dedup]
      exact hpool i (hlen ▸ hi)
    have hadds : ∀ p ∈ pairs, AddsPassing (nodeChecks.map (fun c => c.impl)) p.1 p.2 := by
      intro p hp
      simp only [pairs, List.mem_append, List.mem_map] at hp
      rcases hp with ⟨entry, he, rfl⟩ | ⟨node, hn, rfl⟩
      · exact singleClusterCheckJob_addsPassing _ ctx entry.1 entry.2 (hcluster entry he)
      · obtain ⟨vm, hvm⟩ := hlookup node hn
        exact singleNodeChecksJob_addsPassing nodeChecks env ctx node vm hvm
          (fun c hc st => hnode c hc node hn vm st)
    have hrun : worldAfterWait env ctx nodeChecks nodes =
        (env.poolOrder.dedup.filterMap (fun i => pairs[i]?)).foldl (fun w p => p.1 w)
          (scheduledWorld env nodeChecks nodes) := by
      unfold worldAfterWait
      rw [runJobs_eq_foldl, hjobs, filterMap_getElem?_map, List.foldl_map]
    have hstart : (scheduledWorld env nodeChecks nodes).nodeChecks.map (fun c => c.impl) =
        nodeChecks.map (fun c => c.impl) := by
      simp [scheduledWorld, NodeCheck.StartCheck, Function.comp_def]
    obtain ⟨rs, e, l, n⟩ := foldl_addsPassing (nodeChecks.map (fun c => c.impl))
      (env.poolOrder.dedup.filterMap (fun i => pairs[i]?))
      (fun p hp => hadds p (hperm.subset hp)) (scheduledWorld env nodeChecks nodes) hstart
    have hsum : ((env.poolOrder.dedup.filterMap (fun i => pairs[i]?)).map (fun p => p.2)).sum =
        env.clusterChecks.length + nodes.length * nodeChecks.length := by
      rw [(hperm.map (fun p => p.2)).sum_eq]
      simp [pairs, Function.comp_def]
    have e2 : (worldAfterWait env ctx nodeChecks nodes).shared.resultCollector.results = rs := by
      rw [hrun, e]
      simp [scheduledWorld, NewResultsCollector]
    first
      | (show (worldAfterWait env ctx nodeChecks nodes).shared.resultCollector.results.length = _
         rw [e2, l, hsum])
      | (show ∀ r ∈ (worldAfterWait env ctx nodeChecks nodes).shared.resultCollector.results, _
         rw [e2]
         exact n)

/-- C4, at a concrete input: two passing cluster checks, the nodes `exNodeA` and `exNodeC`
and three passing node checks give `2 + 2 * 3 = 8` results. -/
theorem all_passing_run_collects_N_plus_MK_witness :
    ∃ rc, (runChecks exEnvAllPass [exPass "a", exPass "b", exPass "c"]).resultCollector =
        some rc ∧
      rc.results.length = 2 + 2 * 3 ∧
      (∀ r ∈ rc.results, r.Error = none) ∧
      (runChecks exEnvAllPass [exPass "a", exPass "b", exPass "c"]).err = none :=
  all_passing_run_collects_N_plus_MK exEnvAllPass [exPass "a", exPass "b", exPass "c"] exCtx
    "administrator@vsphere.local" { VSphere := none } [exNodeA, exNodeC] rfl rfl rfl rfl rfl
    (by
      intro i hi
      have h4 : i < 4 := hi
      have : i = 0 ∨ i = 1 ∨ i = 2 ∨ i = 3 := by omega
      rcases this with h | h | h | h <;> subst h <;> decide)
    (by
      intro entry he
      have he2 : entry ∈ [(("CheckFolder", fun _ => none) : String × ClusterCheck),
          ("CheckTask", fun _ => none)] := he
      simp only [List.mem_cons, List.mem_singleton, List.not_mem_nil, or_false] at he2
      rcases he2 with h | h <;> subst h <;> rfl)
    (by
      intro node hn
      simp only [List.mem_cons, List.mem_singleton, List.not_mem_nil, or_false] at hn
      rcases hn with h | h <;> subst h
      · exact ⟨{ Self := "vm-a" }, rfl⟩
      · exact ⟨{ Self := "vm-c" }, rfl⟩)
    (by
      intro c hc node _ vm st
      simp only [List.mem_cons, List.mem_singleton, List.not_mem_nil, or_false] at hc
      rcases hc with h | h | h <;> subst h <;> rfl)

/-! ## Cluster checks -/

theorem foldl_singleClusterCheckJob_results {σ : Type} (ctx : CheckContext)
    (entries : List (String × ClusterCheck)) :
    ∀ w : World σ,
      (entries.foldl (fun w entry => singleClusterCheckJob ctx entry.1 entry.2 w)
        w).shared.resultCollector.results =
      w.shared.resultCollector.results ++
        entries.map (fun entry => { Name := entry.1, Node := none, Error := entry.2 ctx }) := by
  induction entries with
  | nil => intro w; simp
  | cons entry entries ih =>
    intro w
    rw [List.foldl_cons, ih]
    simp [singleClusterCheckJob, runSingleClusterCheck_eq]

/-- C3: `enqueueClusterChecks` submits exactly one work unit per registered cluster
check (and nothing else); each unit is `runSingleClusterCheck` for its check and adds
exactly one result, whose name is the registered name and whose error is what the check
returned (nil on success). So when the pool runs every unit, in whatever order, the
collector gains exactly one result per registered check: a failing check yields one
failing result named for it and every other check still yields its own. -/
theorem cluster_check_one_unit_one_result {σ : Type} (env : Env) (ctx : CheckContext)
    (s : Sched σ) :
    (enqueueClusterChecks env ctx s).checkRunner.jobs =
      s.checkRunner.jobs ++
        env.clusterChecks.map (fun entry => singleClusterCheckJob ctx entry.1 entry.2) ∧
    (enqueueClusterChecks env ctx s).world.shared.trace =
      s.world.shared.trace ++
        env.clusterChecks.map (fun entry => Event.RunGoroutine (.cluster entry.1)) ∧
    (∀ (name : String) (checkFunc : ClusterCheck) (w : World σ),
      (singleClusterCheckJob ctx name checkFunc w).shared =
        runSingleClusterCheck ctx name checkFunc w.shared ∧
      (singleClusterCheckJob ctx name checkFunc w).nodeChecks = w.nodeChecks) ∧
    (∀ (name : String) (checkFunc : ClusterCheck) (sh : Shared),
      (runSingleClusterCheck ctx name checkFunc sh).resultCollector.results =
        sh.resultCollector.results ++ [{ Name := name, Node := none, Error := checkFunc ctx }] ∧
      (runSingleClusterCheck ctx name checkFunc sh).trace =
        sh.trace ++ [Event.ClusterCheck name]) ∧
    (∀ (order : List Nat) (w : World σ), (∀ i, i < env.clusterChecks.length → i ∈ order) →
      (runJobs (env.clusterChecks.map (fun entry => singleClusterCheckJob ctx entry.1 entry.2))
        order.dedup w).shared.resultCollector.results.Perm
        (w.shared.resultCollector.results ++
          env.clusterChecks.map (fun entry =>
            { Name := entry.1, Node := none, Error := entry.2 ctx }))) := by
  refine ⟨?_, ?_, ?_, ?_, ?_⟩
  · rw [enqueueClusterChecks_eq]
  · rw [enqueueClusterChecks_eq]
  · intro name checkFunc w
    exact ⟨rfl, rfl⟩
  · intro name checkFunc sh
    rw [runSingleClusterCheck_eq]
    exact ⟨rfl, rfl⟩
  · intro order w hall
    rw [runJobs_eq_foldl, filterMap_getElem?_map, List.foldl_map,
      foldl_singleClusterCheckJob_results]
    apply List.Perm.append_left
    apply List.Perm.map
    apply filterMap_getElem?_perm _ _ (List.nodup_dedup _)
    intro i hi
    rw [List.mem_dedup]
    exact hall i hi

/-! ## The theorems above on concrete runs -/

/-- C3 on a concrete run of the units: of three cluster checks the second fails and the
pool runs the units in the order 2, 0, 1; each check has its one result. -/
theorem cluster_check_one_unit_one_result_witness :
    (runJobs
      (exEnvThreeClusterChecks.clusterChecks.map
        (fun entry => singleClusterCheckJob (σ := Nat) exCtx entry.1 entry.2))
      [2, 0, 1].dedup (exWorld [])).shared.resultCollector.results =
      [{ Name := "CheckStorage", Node := none, Error := none },
       { Name := "CheckFolder", Node := none, Error := none },
       { Name := "CheckTask", Node := none, Error := some "task failed" }] ∧
    (runJobs
      (exEnvThreeClusterChecks.clusterChecks.map
        (fun entry => singleClusterCheckJob (σ := Nat) exCtx entry.1 entry.2))
      [2, 0, 1].dedup (exWorld [])).shared.resultCollector.results.Perm
      ((exWorld []).shared.resultCollector.results ++
        exEnvThreeClusterChecks.clusterChecks.map (fun entry =>
          { Name := entry.1, Node := none, Error := entry.2 exCtx })) :=
  ⟨rfl, (cluster_check_one_unit_one_result exEnvThreeClusterChecks exCtx (exSched [])).2.2.2.2
    [2, 0, 1] (exWorld []) (by
      intro i hi
      have h3 : i < 3 := hi
      have : i = 0 ∨ i = 1 ∨ i = 2 := by omega
      rcases this with h | h | h <;> subst h <;> decide)⟩



/-- C8 (amended) on concrete calls of `enqueueNodeChecks`: with the node list retrieved,
the `StartCheck` calls lie between the retrieval and the node submissions; without it,
there is only the retrieval. -/
theorem startCheck_after_listNodes_before_node_units_witness :
    (enqueueNodeChecks exEnv exCtx (exSched [exPass "a", exPass "b"])).1.world.shared.trace =
      [Event.ListNodes, Event.StartCheck "a", Event.StartCheck "b",
       Event.RunGoroutine (.node exNodeA), Event.RunGoroutine (.node exNodeC)] ∧
    (enqueueNodeChecks exEnvListFails exCtx
      (exSched [exPass "a", exPass "b"])).1.world.shared.trace = [Event.ListNodes] :=
  ⟨((startCheck_after_listNodes_before_node_units exEnv exCtx
      (exSched [exPass "a", exPass "b"]) [exPass "a", exPass "b"]).1
      [exNodeA, exNodeC] rfl).2.1,
   ((startCheck_after_listNodes_before_node_units exEnvListFails exCtx
      (exSched [exPass "a", exPass "b"]) [exPass "a", exPass "b"]).2.1
      "nodes unavailable" rfl).2.1⟩

/-! ## Finalisation -/

/-- The receivers of a run that never reaches `Wait` are the registered checks as the
run found them. -/
theorem runChecks_nodeChecks_of_no_wait {σ : Type} (env : Env)
    (nodeChecks : List (NodeCheck σ))
    (hno : Event.Wait ∉ (runChecks env nodeChecks).world.shared.trace) :
    (runChecks env nodeChecks).world.nodeChecks = nodeChecks := by
  cases h : env.connect with
  | error err => rw [runChecks_connect_error env nodeChecks err h]
  | ok ctx0 =>
    cases hu : env.UserSession with
    | error err => rw [runChecks_userSession_error env nodeChecks ctx0 err h hu]
    | ok user =>
      cases hi : env.GetInfrastructure with
      | error err => rw [runChecks_getInfrastructure_error env nodeChecks ctx0 user err h hu hi]
      | ok infra =>
        cases hl : env.ListNodes with
        | error err =>
          rw [runChecks_listNodes_error env nodeChecks ctx0 user infra err h hu hi hl]
        | ok nodes =>
          exfalso
          apply hno
          cases hw : env.WaitErr with
          | some err =>
            rw [runChecks_wait_error env nodeChecks ctx0 user infra nodes err h hu hi hl hw]
            simp
          | none =>
            rw [runChecks_ok env nodeChecks ctx0 user infra nodes h hu hi hl hw]
            simp

/-- C7: in every run, `FinishCheck` is called on the registered node checks if and only
if `Wait` returned without error. When it is called, it is called exactly once on each
registered check, in registration order, after `Wait` has returned: the calls follow the
`Wait` event, nothing before it is a `FinishCheck`, and every receiver ends as its own
`FinishCheck` method leaves the receiver that the pool's units left behind. When the
node listing fails or `Wait` returns an error, `FinishCheck` is called on no check: the
trace has no such call, and the receivers are the registered checks untouched (node
listing failed, or `Wait` never reached) or exactly as the pool's units left them
(`Wait` failed). -/
theorem finishCheck_iff_wait_succeeds {σ : Type} (env : Env) (nodeChecks : List (NodeCheck σ)) :
    ((Event.Wait ∈ (runChecks env nodeChecks).world.shared.trace ∧ env.WaitErr = none) →
      ∃ pre, (runChecks env nodeChecks).world.shared.trace =
          pre ++ [Event.Wait] ++ nodeChecks.map (fun c => Event.FinishCheck c.Name) ++
            [Event.FinishedAllChecks, Event.Logout] ∧
        ∀ e ∈ pre, e.isFinishCheck = false) ∧
    (¬ (Event.Wait ∈ (runChecks env nodeChecks).world.shared.trace ∧ env.WaitErr = none) →
      ∀ e ∈ (runChecks env nodeChecks).world.shared.trace, e.isFinishCheck = false) ∧
    (∀ err, env.ListNodes = .error err →
      (∀ e ∈ (runChecks env nodeChecks).world.shared.trace, e.isFinishCheck = false) ∧
      (runChecks env nodeChecks).world.nodeChecks = nodeChecks) ∧
    (∀ err, env.WaitErr = some err →
      ∀ e ∈ (runChecks env nodeChecks).world.shared.trace, e.isFinishCheck = false) ∧
    (Event.Wait ∉ (runChecks env nodeChecks).world.shared.trace →
      (runChecks env nodeChecks).world.nodeChecks = nodeChecks) ∧
    (∀ ctx0 user infra nodes, env.connect = .ok ctx0 → env.UserSession = .ok user →
      env.GetInfrastructure = .ok infra → env.ListNodes = .ok nodes →
      (env.WaitErr = none →
        (runChecks env nodeChecks).world.nodeChecks =
          (worldAfterWait env (runContext ctx0 user infra) nodeChecks nodes).nodeChecks.map
            (fun c =>
              { impl := c.impl,
                state := c.impl.FinishCheck (runContext ctx0 user infra) c.state })) ∧
      (∀ err, env.WaitErr = some err →
        (runChecks env nodeChecks).world.nodeChecks =
          (worldAfterWait env (runContext ctx0 user infra) nodeChecks nodes).nodeChecks)) := by
  have hmain :
      ((Event.Wait ∈ (runChecks env nodeChecks).world.shared.trace ∧ env.WaitErr = none) →
        ∃ pre, (runChecks env nodeChecks).world.shared.trace =
            pre ++ [Event.Wait] ++ nodeChecks.map (fun c => Event.FinishCheck c.Name) ++
              [Event.FinishedAllChecks, Event.Logout] ∧
          ∀ e ∈ pre, e.isFinishCheck = false) ∧
      (¬ (Event.Wait ∈ (runChecks env nodeChecks).world.shared.trace ∧ env.WaitErr = none) →
        ∀ e ∈ (runChecks env nodeChecks).world.shared.trace, e.isFinishCheck = false) ∧
      (∀ err, env.ListNodes = .error err →
        Event.Wait ∉ (runChecks env nodeChecks).world.shared.trace) := by
    cases h : env.connect with
    | error err =>
      rw [runChecks_connect_error env nodeChecks err h]
      refine ⟨?_, ?_, ?_⟩
      · rintro ⟨hm, _⟩
        simp at hm
      · intro _ e he
        simp only [List.mem_cons, List.mem_singleton, List.not_mem_nil, or_false] at he
        rcases he with h | h <;> subst h <;> rfl
      · intro _ _
        simp
    | ok ctx0 =>
      cases hu : env.UserSession with
      | error err =>
        rw [runChecks_userSession_error env nodeChecks ctx0 err h hu]
        refine ⟨?_, ?_, ?_⟩
        · rintro ⟨hm, _⟩
          simp at hm
        · intro _ e he
          simp only [List.mem_cons, List.mem_singleton, List.not_mem_nil, or_false] at he
          rcases he with h | h | h | h <;> subst h <;> rfl
        · intro _ _
          simp
      | ok user =>
        cases hi : env.GetInfrastructure with
        | error err =>
          rw [runChecks_getInfrastructure_error env nodeChecks ctx0 user err h hu hi]
          refine ⟨?_, ?_, ?_⟩
          · rintro ⟨hm, _⟩
            simp at hm
          · intro _ e he
            simp only [List.mem_cons, List.mem_singleton, List.not_mem_nil, or_false] at he
            rcases he with h | h | h | h | h <;> subst h <;> rfl
          · intro _ _
            simp
        | ok infra =>
          cases hl : env.ListNodes with
          | error err =>
            rw [runChecks_listNodes_error env nodeChecks ctx0 user infra err h hu hi hl]
            have hnw : Event.Wait ∉
                traceToListNodes env ++ [Event.FinishedAllChecks, Event.Logout] := by
              simp [traceToListNodes]
            refine ⟨?_, ?_, ?_⟩
            · rintro ⟨hm, _⟩
              exact absurd hm hnw
            · intro _ e he
              rcases List.mem_append.mp he with h1 | h1
              · exact traceToListNodes_not_finish env e h1
              · simp only [List.mem_cons, List.mem_singleton, List.not_mem_nil,
                  or_false] at h1
                rcases h1 with h1 | h1 <;> subst h1 <;> rfl
            · intro _ _
              exact hnw
          | ok nodes =>
            obtain ⟨_, evs, rs, ht, hk, _⟩ :=
              worldAfterWait_extends env (runContext ctx0 user infra) nodeChecks nodes
            have hpre : ∀ e ∈ (worldAfterWait env (runContext ctx0 user infra) nodeChecks
                nodes).shared.trace, e.isFinishCheck = false := by
              intro e he
              rw [ht] at he
              rcases List.mem_append.mp he with h1 | h1
              · exact scheduledWorld_trace_not_finish env nodeChecks nodes e h1
              · exact isFinishCheck_of_isWorker e (hk e h1)
            cases hw : env.WaitErr with
            | some err =>
              rw [runChecks_wait_error env nodeChecks ctx0 user infra nodes err h hu hi hl hw]
              refine ⟨?_, ?_, ?_⟩
              · rintro ⟨_, hn⟩
                simp at hn
              · intro _ e he
                rcases List.mem_append.mp he with h1 | h1
                · exact hpre e h1
                · simp only [List.mem_cons, List.mem_singleton, List.not_mem_nil,
                    or_false] at h1
                  rcases h1 with h1 | h1 | h1 <;> subst h1 <;> rfl
              · intro err2 hc
                simp at hc
            | none =>
              rw [runChecks_ok env nodeChecks ctx0 user infra nodes h hu hi hl hw]
              refine ⟨?_, ?_, ?_⟩
              · intro _
                refine ⟨_, ?_, hpre⟩
                have hn := worldAfterWait_names env (runContext ctx0 user infra) nodeChecks nodes
                have hn2 := congrArg (List.map Event.FinishCheck) hn
                simp only [List.map_map, Function.comp_def] at hn2
                simp only [hn2]
              · intro hneg
                exfalso
                apply hneg
                refine ⟨?_, rfl⟩
                simp
              · intro err2 hc
                simp at hc
  obtain ⟨m1, m2, m3⟩ := hmain
  refine ⟨m1, m2, ?_, ?_, ?_, ?_⟩
  · intro err hl
    exact ⟨m2 (fun hc => m3 err hl hc.1),
      runChecks_nodeChecks_of_no_wait env nodeChecks (m3 err hl)⟩
  · intro err hw
    apply m2
    rintro ⟨_, hn⟩
    rw [hw] at hn
    simp at hn
  · exact runChecks_nodeChecks_of_no_wait env nodeChecks
  · intro ctx0 user infra nodes h hu hi hl
    refine ⟨?_, ?_⟩
    · intro hw
      rw [runChecks_ok env nodeChecks ctx0 user infra nodes h hu hi hl hw]
      rfl
    · intro err hw
      rw [runChecks_wait_error env nodeChecks ctx0 user infra nodes err h hu hi hl hw]

/-- C7 on concrete runs. The receiver of the example checks counts: `StartCheck` resets
it to 0, each `CheckNode` adds 1, `FinishCheck` adds 100. When `Wait` succeeds (two
nodes), the `FinishCheck` calls follow the `Wait` event and both receivers end at 102;
when `Wait` fails after the pool has run one cluster unit, there is no `FinishCheck`
call and the receivers stay at 0; when the node list cannot be retrieved they stay at
their initial 7. -/
theorem finishCheck_iff_wait_succeeds_witness :
    (∃ pre, (runChecks exEnvAllPass [exPass "a", exPass "b"]).world.shared.trace =
        pre ++ [Event.Wait] ++ [Event.FinishCheck "a", Event.FinishCheck "b"] ++
          [Event.FinishedAllChecks, Event.Logout] ∧
      ∀ e ∈ pre, e.isFinishCheck = false) ∧
    (runChecks exEnvAllPass [exPass "a", exPass "b"]).world.nodeChecks.map
      (fun c => c.state) = [102, 102] ∧
    (∀ e ∈ (runChecks exEnvWaitFails [exPass "a", exPass "b"]).world.shared.trace,
      e.isFinishCheck = false) ∧
    (runChecks exEnvWaitFails [exPass "a", exPass "b"]).world.nodeChecks.map
      (fun c => c.state) = [0, 0] ∧
    (runChecks exEnvListFails [exPass "a", exPass "b"]).world.nodeChecks.map
      (fun c => c.state) = [7, 7] :=
  ⟨(finishCheck_iff_wait_succeeds exEnvAllPass [exPass "a", exPass "b"]).1
      ⟨by
        have h : (runChecks exEnvAllPass [exPass "a", exPass "b"]).world.shared.trace =
          [Event.StartMetricCollection, Event.connect, Event.UserSession,
           Event.GetInfrastructure, Event.RunGoroutine (.cluster "CheckFolder"),
           Event.RunGoroutine (.cluster "CheckTask"), Event.ListNodes, Event.StartCheck "a",
           Event.StartCheck "b", Event.RunGoroutine (.node exNodeA),
           Event.RunGoroutine (.node exNodeC), Event.getVM exNodeC,
           Event.CheckNode "a" exNodeC, Event.CheckNode "b" exNodeC, Event.getVM exNodeA,
           Event.CheckNode "a" exNodeA, Event.CheckNode "b" exNodeA,
           Event.ClusterCheck "CheckFolder", Event.ClusterCheck "CheckTask", Event.Wait,
           Event.FinishCheck "a", Event.FinishCheck "b", Event.FinishedAllChecks,
           Event.Logout] := rfl
        rw [h]
        decide, rfl⟩,
   (congrArg (List.map (fun c : NodeCheck Nat => c.state))
      (((finishCheck_iff_wait_succeeds exEnvAllPass [exPass "a", exPass "b"]).2.2.2.2.2
        exCtx "administrator@vsphere.local" { VSphere := none } [exNodeA, exNodeC]
        rfl rfl rfl rfl).1 rfl)).trans rfl,
   (finishCheck_iff_wait_succeeds exEnvWaitFails [exPass "a", exPass "b"]).2.2.2.1
      "context deadline exceeded" rfl,
   (congrArg (List.map (fun c : NodeCheck Nat => c.state))
      (((finishCheck_iff_wait_succeeds exEnvWaitFails [exPass "a", exPass "b"]).2.2.2.2.2
        exCtx "administrator@vsphere.local" { VSphere := none } [exNodeA, exNodeC]
        rfl rfl rfl rfl).2 "context deadline exceeded" rfl)).trans rfl,
   congrArg (List.map (fun c : NodeCheck Nat => c.state))
      ((finishCheck_iff_wait_succeeds exEnvListFails [exPass "a", exPass "b"]).2.2.1
        "nodes unavailable" rfl).2⟩

/-! ## Run-level errors -/

/-- C5: only the fatal kinds surface as a run-level error. `runChecks` returns the error
`e` exactly when the connection stage fails with `e` (`connect`, the user-session lookup
or the infrastructure retrieval, all before any probe runs), or the node-list retrieval
fails with `e`, or the pool join fails with `e`; a submission returns nothing to the
scheduler, so it adds no further case. In particular, whenever these stages succeed the
returned error is nil, however many cluster checks, node checks or per-node VM lookups
fail: nothing is assumed about them. -/
theorem run_error_only_from_fatal_stages {σ : Type} (env : Env)
    (nodeChecks : List (NodeCheck σ)) :
    (∀ e, (runChecks env nodeChecks).err = some e ↔
      (connectionFailed env e ∨
       (connectionSucceeded env ∧ env.ListNodes = .error e) ∨
       (connectionSucceeded env ∧ (∃ nodes, env.ListNodes = .ok nodes) ∧
         env.WaitErr = some e))) ∧
    (connectionSucceeded env → ∀ nodes, env.ListNodes = .ok nodes → env.WaitErr = none →
      (runChecks env nodeChecks).err = none) := by
  unfold connectionFailed connectionSucceeded
  cases h : env.connect with
  | error e1 =>
    rw [runChecks_connect_error env nodeChecks e1 h]
    refine ⟨?_, ?_⟩
    · intro e
      simp
    · rintro ⟨ctx0, user, infra, hc, _, _⟩
      simp at hc
  | ok ctx0 =>
    cases hu : env.UserSession with
    | error e1 =>
      rw [runChecks_userSession_error env nodeChecks ctx0 e1 h hu]
      refine ⟨?_, ?_⟩
      · intro e
        simp
      · rintro ⟨c, user, infra, _, hc, _⟩
        simp at hc
    | ok user =>
      cases hi : env.GetInfrastructure with
      | error e1 =>
        rw [runChecks_getInfrastructure_error env nodeChecks ctx0 user e1 h hu hi]
        refine ⟨?_, ?_⟩
        · intro e
          simp
        · rintro ⟨c, u, infra, _, _, hc⟩
          simp at hc
      | ok infra =>
        cases hl : env.ListNodes with
        | error e1 =>
          rw [runChecks_listNodes_error env nodeChecks ctx0 user infra e1 h hu hi hl]
          refine ⟨?_, ?_⟩
          · intro e
            simp
          · intro _ nodes hc
            simp at hc
        | ok nodes =>
          cases hw : env.WaitErr with
          | some e1 =>
            rw [runChecks_wait_error env nodeChecks ctx0 user infra nodes e1 h hu hi hl hw]
            refine ⟨?_, ?_⟩
            · intro e
              simp
            · intro _ nodes2 _ hc
              simp at hc
          | none =>
            rw [runChecks_ok env nodeChecks ctx0 user infra nodes h hu hi hl hw]
            refine ⟨?_, ?_⟩
            · intro e
              simp
            · intro _ _ _ _
              rfl

/-- C5 on concrete runs. In the first a cluster check, a node check and the lookup of
`exNodeB` fail while the fatal stages succeed: the failures are in the collector and the
run returns no error. In the second the infrastructure retrieval fails before any probe
runs: the run returns that error, a failure of the connection stage. -/
theorem run_error_only_from_fatal_stages_witness :
    connectionSucceeded exEnvChecksFail ∧
    (runChecks exEnvChecksFail [exFail "CheckNodeDiskUUID" "no disk uuid"]).err = none ∧
    (runChecks exEnvChecksFail
      [exFail "CheckNodeDiskUUID" "no disk uuid"]).resultCollector =
      some { results :=
        [{ Name := "CheckFolder", Node := none, Error := some "folder missing" },
         { Name := "CheckNodeDiskUUID", Node := none, Error := some "no disk uuid" },
         { Name := "CheckNodeDiskUUID", Node := none,
           Error := some "failed to find VM by UUID b: not found" }] } ∧
    connectionFailed exEnvInfraFails "infrastructure unavailable" ∧
    (runChecks exEnvInfraFails [exPass "p"]).err = some "infrastructure unavailable" :=
  ⟨⟨exCtx, "administrator@vsphere.local", { VSphere := none }, rfl, rfl, rfl⟩,
   (run_error_only_from_fatal_stages exEnvChecksFail
      [exFail "CheckNodeDiskUUID" "no disk uuid"]).2
      ⟨exCtx, "administrator@vsphere.local", { VSphere := none }, rfl, rfl, rfl⟩
      [exNodeA, exNodeB] rfl rfl,
   rfl,
   Or.inr (Or.inr ⟨exCtx, "administrator@vsphere.local", rfl, rfl, rfl⟩),
   ((run_error_only_from_fatal_stages exEnvInfraFails [exPass "p"]).1
      "infrastructure unavailable").mpr
      (Or.inl (Or.inr (Or.inr ⟨exCtx, "administrator@vsphere.local", rfl, rfl, rfl⟩)))⟩

/-! ## The node field of the results -/

/-- C9, as stated, fails: the results recorded for two different nodes are not
distinguished by a node field. The passing check `p` yields the same value for `exNodeA`
and for `exNodeC`, with no node in it; and the result recorded when the lookup of
`exNodeB` fails has no node in its node field either. -/
theorem node_results_not_distinguished_by_node :
    exNodeA ≠ exNodeC ∧
    (singleNodeChecksJob exEnv exCtx exNodeA (exWorld [exPass "p"])).shared.resultCollector.results
      = [{ Name := "p", Node := none, Error := none }] ∧
    (singleNodeChecksJob exEnv exCtx exNodeC (exWorld [exPass "p"])).shared.resultCollector.results
      = [{ Name := "p", Node := none, Error := none }] ∧
    (singleNodeChecksJob exEnv exCtx exNodeB (exWorld [exPass "p"])).shared.resultCollector.results
      = [{ Name := "p", Node := none,
           Error := some "failed to find VM by UUID b: not found" }] := by
  refine ⟨by decide, rfl, rfl, rfl⟩

/-- C9, amended: every result the node work unit records has its node field unset, on
the lookup-failure path and on the `CheckNode` path. On the lookup-failure path the
result of a check is its name with the error `getVM` returned; on the `CheckNode` path
it is its name with what `CheckNode` returned. So on the `CheckNode` path, when every
registered check has the same outcome on two nodes, the results recorded for the two
nodes are equal values. -/
theorem node_results_carry_name_and_error_only {σ : Type} (env : Env) (ctx : CheckContext)
    (node : Node) (w : World σ) :
    (∃ rs, (singleNodeChecksJob env ctx node w).shared.resultCollector.results =
        w.shared.resultCollector.results ++ rs ∧
      rs.map (fun r => r.Name) = w.nodeChecks.map (fun c => c.Name) ∧
      ∀ r ∈ rs, r.Node = none) ∧
    (∀ e, getVM env ctx node = .error e →
      (singleNodeChecksJob env ctx node w).shared.resultCollector.results =
        w.shared.resultCollector.results ++
          w.nodeChecks.map (fun c => { Name := c.Name, Node := none, Error := some e })) ∧
    (∀ vm, getVM env ctx node = .ok vm →
      (singleNodeChecksJob env ctx node w).shared.resultCollector.results =
        w.shared.resultCollector.results ++
          w.nodeChecks.map (fun c =>
            { Name := c.Name, Node := none, Error := (c.CheckNode ctx node vm).1 })) ∧
    (∀ (node2 : Node) (vm vm2 : VirtualMachine), getVM env ctx node = .ok vm →
      getVM env ctx node2 = .ok vm2 →
      (∀ c ∈ w.nodeChecks, (c.CheckNode ctx node vm).1 = (c.CheckNode ctx node2 vm2).1) →
      (singleNodeChecksJob env ctx node w).shared.resultCollector.results =
        (singleNodeChecksJob env ctx node2 w).shared.resultCollector.results) := by
  refine ⟨?_, ?_, ?_, ?_⟩
  · cases h : getVM env ctx node with
    | error e =>
      rw [singleNodeChecksJob_error env ctx node w e h]
      refine ⟨_, rfl, ?_, ?_⟩
      · simp [Function.comp_def]
      · intro r hr
        simp only [List.mem_map] at hr
        obtain ⟨c, _, rfl⟩ := hr
        rfl
    | ok vm =>
      rw [singleNodeChecksJob_ok env ctx node w vm h]
      refine ⟨_, rfl, ?_, ?_⟩
      · simp [Function.comp_def]
      · intro r hr
        simp only [List.mem_map] at hr
        obtain ⟨c, _, rfl⟩ := hr
        rfl
  · intro e h
    rw [singleNodeChecksJob_error env ctx node w e h]
  · intro vm h
    rw [singleNodeChecksJob_ok env ctx node w vm h]
  · intro node2 vm vm2 h h2 hsame
    rw [singleNodeChecksJob_ok env ctx node w vm h,
      singleNodeChecksJob_ok env ctx node2 w vm2 h2]
    show w.shared.resultCollector.results ++ _ = w.shared.resultCollector.results ++ _
    congr 1
    apply List.map_congr_left
    intro c hc
    rw [hsame c hc]

/-- C9 (amended) on a concrete input: the passing check `p` and the failing check `q`
have the same outcomes on `exNodeA` and on `exNodeC`, and the two units record the same
two results. -/
theorem node_results_carry_name_and_error_only_witness :
    exNodeA ≠ exNodeC ∧
    (singleNodeChecksJob exEnv exCtx exNodeA
        (exWorld [exPass "p", exFail "q" "bad"])).shared.resultCollector.results =
      (singleNodeChecksJob exEnv exCtx exNodeC
        (exWorld [exPass "p", exFail "q" "bad"])).shared.resultCollector.results ∧
    (singleNodeChecksJob exEnv exCtx exNodeA
        (exWorld [exPass "p", exFail "q" "bad"])).shared.resultCollector.results =
      [{ Name := "p", Node := none, Error := none },
       { Name := "q", Node := none, Error := some "bad" }] :=
  ⟨by decide,
   (node_results_carry_name_and_error_only exEnv exCtx exNodeA
      (exWorld [exPass "p", exFail "q" "bad"])).2.2.2 exNodeC { Self := "vm-a" }
      { Self := "vm-c" } rfl rfl (by
        intro c hc
        simp only [exWorld, List.mem_cons, List.mem_singleton, List.not_mem_nil,
          or_false] at hc
        rcases hc with h | h <;> subst h <;> rfl),
   (node_results_carry_name_and_error_only exEnv exCtx exNodeA
      (exWorld [exPass "p", exFail "q" "bad"])).2.2.1 { Self := "vm-a" } rfl⟩

end Operator
